import Mathlib

/-!
Verification development for the zipget repository: a shallow embedding of the
egress guard (package protect), the MIME registry, the filename sanitizer, the
loader's Check and Download operations, the in-memory task store (package
memstor) and the manager's GetTaskStatus, together with theorems settling the
frozen specification claims.
-/

namespace ZipGet

/-! ## Data model: model.File and model.Task -/

/-- Embedding of model.File (the current revision, whose ID field carries the
json tag "-" and is documented as unique within a task and assigned on
insertion). Status is kept as a natural number HTTP-style code. -/
structure File where
  ID : Int
  URL : String
  ContentType : String
  RealType : String
  OrigName : String
  Name : String
  Size : Int
  Status : Nat
  ErrorMsg : String
deriving DecidableEq

/-- A File with every field zero, the Go zero value. -/
def emptyFile : File :=
  { ID := 0, URL := "", ContentType := "", RealType := "", OrigName := "",
    Name := "", Size := 0, Status := 0, ErrorMsg := "" }

/-! ## Egress guard (package protect) -/

/-- An IP address as returned by the resolver: either 4 bytes or 16 bytes.
net.IPNet.Contains first converts 4-in-6 addresses with To4, so v4-mapped
addresses are represented directly by the v4 constructor. -/
inductive IP where
  | v4 (a b c d : Nat)
  | v6 (bytes : List Nat)
deriving DecidableEq

/-- One CIDR block as produced by net.ParseCIDR: the network bytes and the
mask bytes, in the family indicated by isV4. -/
structure IPBlock where
  isV4 : Bool
  net : List Nat
  mask : List Nat

/-- Byte-wise masked comparison, the body of net.IPNet.Contains. -/
def maskedEq : List Nat → List Nat → List Nat → Bool
  | [], [], [] => true
  | x :: xs, n :: ns, m :: ms => (x &&& m == n) && maskedEq xs ns ms
  | _, _, _ => false

/-- blockContains blk ip mirrors blk.Contains(ip): families must agree after
the To4 conversion, then every byte must match under the mask. -/
def blockContains (blk : IPBlock) (ip : IP) : Bool :=
  match ip, blk.isV4 with
  | IP.v4 a b c d, true => maskedEq [a, b, c, d] blk.net blk.mask
  | IP.v6 bs, false => maskedEq bs blk.net blk.mask
  | _, _ => false

/-- The fixed blocklist initialised in the protect package's init:
127.0.0.0/8, 10.0.0.0/8, 172.16.0.0/12, 192.168.0.0/16, 169.254.0.0/16,
::1/128, fc00::/7, fe80::/10 (each as network bytes and mask bytes). -/
def privateIPBlocks : List IPBlock :=
  [ { isV4 := true, net := [127, 0, 0, 0], mask := [255, 0, 0, 0] },
    { isV4 := true, net := [10, 0, 0, 0], mask := [255, 0, 0, 0] },
    { isV4 := true, net := [172, 16, 0, 0], mask := [255, 240, 0, 0] },
    { isV4 := true, net := [192, 168, 0, 0], mask := [255, 255, 0, 0] },
    { isV4 := true, net := [169, 254, 0, 0], mask := [255, 255, 0, 0] },
    { isV4 := false, net := [0, 0, 0, 0, 0, 0, 0, 0, 0, 0, 0, 0, 0, 0, 0, 1],
      mask := [255, 255, 255, 255, 255, 255, 255, 255,
               255, 255, 255, 255, 255, 255, 255, 255] },
    { isV4 := false, net := [252, 0, 0, 0, 0, 0, 0, 0, 0, 0, 0, 0, 0, 0, 0, 0],
      mask := [254, 0, 0, 0, 0, 0, 0, 0, 0, 0, 0, 0, 0, 0, 0, 0] },
    { isV4 := false, net := [254, 128, 0, 0, 0, 0, 0, 0, 0, 0, 0, 0, 0, 0, 0, 0],
      mask := [255, 192, 0, 0, 0, 0, 0, 0, 0, 0, 0, 0, 0, 0, 0, 0] } ]

/-- IsPrivateIP loops over the fixed blocklist and reports whether any block
contains the address. -/
def IsPrivateIP (ip : IP) : Bool :=
  privateIPBlocks.any (fun blk => blockContains blk ip)

/-- The error outcomes of ReplaceHostToIP after a successful DNS lookup:
either the ErrSSRF-wrapping error naming the offending private address, or the
"no IP addresses found" error. -/
inductive ReplaceErr where
  | ssrf (ip : IP)
  | noAddresses
deriving DecidableEq

/-- ReplaceHostToIP, modelled after the DNS lookup: given the resolver's
result list and the original port, reject with the SSRF error as soon as any
resolved address is private (the loop reports the first private one),
otherwise rewrite the dial target to the first resolved address joined with
the port. -/
def ReplaceHostToIP (ips : List IP) (port : String) : Except ReplaceErr (IP × String) :=
  match ips with
  | [] => Except.error ReplaceErr.noAddresses
  | first :: _ =>
    match ips.find? (fun ip => IsPrivateIP ip) with
    | some bad => Except.error (ReplaceErr.ssrf bad)
    | none => Except.ok (first, port)

/-- C1: if any resolved address is private the guard fails with the SSRF error
(and yields no dial target); if none is private it returns the first resolved
address joined with the original port. -/
theorem replaceHostToIP_ssrf_policy :
    (∀ (ips : List IP) (port : String) (ip : IP), ip ∈ ips → IsPrivateIP ip = true →
      ∃ bad, ReplaceHostToIP ips port = Except.error (ReplaceErr.ssrf bad) ∧
        IsPrivateIP bad = true) ∧
    (∀ (ips : List IP) (port : String) (h : ips ≠ []),
      (∀ ip ∈ ips, IsPrivateIP ip = false) →
      ReplaceHostToIP ips port = Except.ok (ips.head h, port)) := by
  constructor
  · intro ips port ip hmem hpriv
    match ips, hmem with
    | first :: rest, hmem =>
      unfold ReplaceHostToIP
      match hfind : (first :: rest).find? (fun ip => IsPrivateIP ip) with
      | some bad =>
        exact ⟨bad, rfl, List.find?_some hfind⟩
      | none =>
        exact absurd hpriv (by simpa using List.find?_eq_none.mp hfind ip hmem)
  · intro ips port h hnone
    match ips with
    | first :: rest =>
      unfold ReplaceHostToIP
      have hfind : (first :: rest).find? (fun ip => IsPrivateIP ip) = none := by
        apply List.find?_eq_none.mpr
        intro x hx
        simp [hnone x hx]
      simp [hfind]

/-- Witness for C1 at concrete inputs: a lookup containing the private
address 10.0.0.1 is rejected with the SSRF error, and a lookup resolving only
to 8.8.8.8 is rewritten to that address with the original port. -/
theorem replaceHostToIP_ssrf_policy_witness :
    (∃ bad, ReplaceHostToIP [IP.v4 8 8 8 8, IP.v4 10 0 0 1] ("443") =
        Except.error (ReplaceErr.ssrf bad) ∧ IsPrivateIP bad = true) ∧
    ReplaceHostToIP [IP.v4 8 8 8 8] ("443") = Except.ok (IP.v4 8 8 8 8, ("443")) := by
  constructor
  · exact replaceHostToIP_ssrf_policy.1 [IP.v4 8 8 8 8, IP.v4 10 0 0 1] ("443")
      (IP.v4 10 0 0 1) (by decide) (by decide)
  · exact replaceHostToIP_ssrf_policy.2 [IP.v4 8 8 8 8] ("443")
      (by decide) (by decide)

/-! ## Filename sanitizer (internal/loader/filename.go) -/

def defaultFileName : String := "unnamed"

def maxBaseNameLen : Nat := 100

/-- unicode.IsSpace: the Latin-1 space characters plus the Unicode space
separators (White_Space property). -/
def goIsSpace (c : Char) : Bool :=
  let n := c.toNat
  n == 9 || n == 10 || n == 11 || n == 12 || n == 13 || n == 32 ||
  n == 133 || n == 160 || n == 0x1680 || (0x2000 ≤ n && n ≤ 0x200A) ||
  n == 0x2028 || n == 0x2029 || n == 0x202F || n == 0x205F || n == 0x3000

/-- unicode.IsControl: the Cc category, 0x00-0x1F and 0x7F-0x9F. -/
def goIsControl (c : Char) : Bool :=
  c.toNat < 32 || (127 ≤ c.toNat && c.toNat ≤ 159)

/-- The non-graphic code points outside Cc that unicode.IsPrint rejects,
approximated by the format (Cf) characters and noncharacters relevant to
untrusted filename hints: soft hyphen, Arabic marks, Mongolian vowel
separator, zero-width and BIDI controls, word joiners, interlinear
annotation controls, BOM and noncharacters. -/
def goNonGraphic (c : Char) : Bool :=
  let n := c.toNat
  n == 0xAD || (0x600 ≤ n && n ≤ 0x605) || n == 0x61C || n == 0x6DD ||
  n == 0x70F || n == 0x8E2 || n == 0x180E || (0x200B ≤ n && n ≤ 0x200F) ||
  (0x202A ≤ n && n ≤ 0x202E) || (0x2060 ≤ n && n ≤ 0x2064) ||
  (0x2066 ≤ n && n ≤ 0x206F) || n == 0xFEFF ||
  (0xFD00 ≤ n && 0xFDD0 ≤ n && n ≤ 0xFDEF) || (0xFFF9 ≤ n && n ≤ 0xFFFB) ||
  (n &&& 0xFFFF) == 0xFFFE || (n &&& 0xFFFF) == 0xFFFF

/-- unicode.IsPrint restricted as above. -/
def goIsPrint (c : Char) : Bool :=
  !(goIsControl c) && !(goNonGraphic c)

/-- The asciiProblem constant: the ASCII dangerous characters replaced by
a dash (angle brackets, colon, double quote, slashes, pipe, question mark,
asterisk, tilde, dot, semicolon, hash, dollar, percent, ampersand,
apostrophe, parentheses, braces, square brackets, bang and backtick). -/
def asciiProblemChars : List Char :=
  ['<', '>', ':', Char.ofNat 34, '/', '\\', '|', '?', '*', '~', '.', ';',
   '#', '$', '%', '&', Char.ofNat 39, '(', ')', Char.ofNat 123,
   Char.ofNat 125, '[', ']', '!', Char.ofNat 96]

/-- The fullwidthProblem constant: full-width homoglyphs of the dangerous
characters. -/
def fullwidthProblemChars : List Char :=
  ['＜', '＞', '：', '＂', '／', '＼', '｜', '？', '＊', '～', '；', '＃',
   '＄', '％', '＆', '＇', '（', '）', '｛', '｝', '［', '］', '！']

/-- One iteration of the sanitizer's character switch: spaces become a dash,
control and non-graphic characters are dropped, problem characters and their
full-width homoglyphs become a dash, anything else is kept. -/
def classify (c : Char) : Option Char :=
  if goIsSpace c then some '-'
  else if goIsControl c || !(goIsPrint c) then none
  else if asciiProblemChars.contains c then some '-'
  else if fullwidthProblemChars.contains c then some '-'
  else some c

/-- The sanitizer's main loop: prev is the previously written character
(initially a dash, so no leading dash is written), n the number of written
characters, and the loop stops once n reaches maxLen; consecutive dashes are
collapsed. -/
def sanLoop (maxLen : Nat) : List Char → Char → Nat → List Char
  | [], _, _ => []
  | c :: rest, prev, n =>
    if maxLen ≤ n then []
    else
      match classify c with
      | none => sanLoop maxLen rest prev n
      | some r =>
        if r == '-' && prev == '-' then sanLoop maxLen rest prev n
        else r :: sanLoop maxLen rest r (n + 1)

/-- Removal of a single trailing dash, as done on the built name. -/
def dropTrailingDash (l : List Char) : List Char :=
  if l.getLast? = some '-' then l.dropLast else l

/-- sanitizeFilename: run the loop with a virtual preceding dash, drop a
trailing dash, and substitute the default name when the result is empty. -/
def sanitizeFilename (s : String) (maxLen : Nat) : String :=
  if dropTrailingDash (sanLoop maxLen s.data '-' 0) = [] then defaultFileName
  else String.mk (dropTrailingDash (sanLoop maxLen s.data '-' 0))

/-- The Windows reserved device names, including the Unicode-superscript
variants of COM and LPT. -/
def reservedNames : List String :=
  [("CON"), ("PRN"), ("AUX"), ("NUL"),
   ("COM1"), ("COM2"), ("COM3"), ("COM4"), ("COM5"), ("COM6"), ("COM7"),
   ("COM8"), ("COM9"), ("COM¹"), ("COM²"), ("COM³"),
   ("LPT1"), ("LPT2"), ("LPT3"), ("LPT4"), ("LPT5"), ("LPT6"), ("LPT7"),
   ("LPT8"), ("LPT9"), ("LPT¹"), ("LPT²"), ("LPT³")]

def isReservedName (s : String) : Bool :=
  reservedNames.contains s

/-- strings.ToUpper restricted to the ASCII range: sufficient for the
reserved-name comparison, since every reserved name consists of ASCII letters,
digits and superscript digits (which have no upper-case mapping). -/
def goToUpper (s : String) : String :=
  String.mk (s.data.map Char.toUpper)

/-- strings.LastIndexAny over "/\\": keep everything after the last path
separator. -/
def stripPath (s : String) : String :=
  String.mk ((s.data.reverse.takeWhile (fun c => !(c == '/' || c == '\\'))).reverse)

/-- strings.LastIndexByte over the dot: keep everything before the last dot
when one exists. -/
def stripExtension (s : String) : String :=
  if s.data.contains '.' then
    String.mk (((s.data.reverse.dropWhile (fun c => !(c == '.'))).drop 1).reverse)
  else s

/-- The base name constructFileName derives from a non-empty hint: strip the
path, strip the extension, sanitize with the 100-code-point cap. -/
def sanitizedBase (hint : String) : String :=
  sanitizeFilename (stripExtension (stripPath hint)) maxBaseNameLen

/-- constructFileName: empty hints use the default base; a positive unique
number is appended as a dash suffix; otherwise reserved Windows device names
get a trailing underscore; the required extension is always appended last. -/
def constructFileName (fileName : String) (fileExt : String) (uniqueNum : Nat) : String :=
  if fileName = "" then
    if 0 < uniqueNum then defaultFileName ++ ("-") ++ toString uniqueNum ++ fileExt
    else defaultFileName ++ fileExt
  else
    if 0 < uniqueNum then
      sanitizedBase fileName ++ ("-") ++ toString uniqueNum ++ fileExt
    else if isReservedName (goToUpper (sanitizedBase fileName)) then
      sanitizedBase fileName ++ ("_") ++ fileExt
    else sanitizedBase fileName ++ fileExt

/-! ### Sanitizer lemmas -/

theorem classify_dash : classify '-' = some '-' := by decide

/-- Whatever the switch emits is a fixed point of the switch. -/
theorem classify_self {c r : Char} (h : classify c = some r) : classify r = some r := by
  unfold classify at h
  by_cases h1 : goIsSpace c = true
  · rw [if_pos h1] at h
    injection h with h'
    subst h'
    exact classify_dash
  · rw [if_neg h1] at h
    by_cases h2 : (goIsControl c || !(goIsPrint c)) = true
    · rw [if_pos h2] at h
      exact Option.noConfusion h
    · rw [if_neg h2] at h
      by_cases h3 : asciiProblemChars.contains c = true
      · rw [if_pos h3] at h
        injection h with h'
        subst h'
        exact classify_dash
      · rw [if_neg h3] at h
        by_cases h4 : fullwidthProblemChars.contains c = true
        · rw [if_pos h4] at h
          injection h with h'
          subst h'
          exact classify_dash
        · rw [if_neg h4] at h
          injection h with h'
          subst h'
          unfold classify
          rw [if_neg h1, if_neg h2, if_neg h3, if_neg h4]

/-- No two adjacent dashes in a character list. -/
def noAdjDash : List Char → Bool
  | a :: b :: t => (!(a == '-' && b == '-')) && noAdjDash (b :: t)
  | _ => true

theorem noAdjDash_tail {a : Char} {l : List Char} (h : noAdjDash (a :: l) = true) :
    noAdjDash l = true := by
  cases l with
  | nil => rfl
  | cons b t => exact ((Bool.and_eq_true _ _).mp h).2

/-! Unfolding equations for the loop. -/

set_option maxHeartbeats 2000000 in
theorem sanLoop_stop {ml n : Nat} (h : ml ≤ n) (c : Char) (rest : List Char)
    (prev : Char) : sanLoop ml (c :: rest) prev n = [] := by
  rw [sanLoop, if_pos h]

theorem sanLoop_skip {ml n : Nat} {c : Char} (hml : ¬ ml ≤ n)
    (hcl : classify c = none) (rest : List Char) (prev : Char) :
    sanLoop ml (c :: rest) prev n = sanLoop ml rest prev n := by
  rw [sanLoop, if_neg hml, hcl]

theorem sanLoop_collapse {ml n : Nat} {c r prev : Char} (hml : ¬ ml ≤ n)
    (hcl : classify c = some r) (hdd : (r == '-' && prev == '-') = true)
    (rest : List Char) :
    sanLoop ml (c :: rest) prev n = sanLoop ml rest prev n := by
  rw [sanLoop, if_neg hml, hcl]
  show (if (r == '-' && prev == '-') = true then sanLoop ml rest prev n
    else r :: sanLoop ml rest r (n + 1)) = sanLoop ml rest prev n
  rw [if_pos hdd]

theorem sanLoop_write {ml n : Nat} {c r prev : Char} (hml : ¬ ml ≤ n)
    (hcl : classify c = some r) (hdd : (r == '-' && prev == '-') = false)
    (rest : List Char) :
    sanLoop ml (c :: rest) prev n = r :: sanLoop ml rest r (n + 1) := by
  rw [sanLoop, if_neg hml, hcl]
  show (if (r == '-' && prev == '-') = true then sanLoop ml rest prev n
    else r :: sanLoop ml rest r (n + 1)) = r :: sanLoop ml rest r (n + 1)
  rw [if_neg (by simp [hdd])]

/-- The loop output consists of switch fixed points, has no adjacent dashes
even taking the virtual previous character into account, and respects the
length cap. -/
theorem sanLoop_good (ml : Nat) (s : List Char) : ∀ (prev : Char) (n : Nat),
    (∀ c ∈ sanLoop ml s prev n, classify c = some c) ∧
    noAdjDash (prev :: sanLoop ml s prev n) = true ∧
    (sanLoop ml s prev n).length ≤ ml - n := by
  induction s with
  | nil =>
    intro prev n
    refine ⟨by simp [sanLoop], ?_, by simp [sanLoop]⟩
    show noAdjDash [prev] = true
    rfl
  | cons c rest ih =>
    intro prev n
    by_cases hml : ml ≤ n
    · rw [sanLoop_stop hml]
      refine ⟨by simp, ?_, by simp⟩
      show noAdjDash [prev] = true
      rfl
    · cases hcl : classify c with
      | none => rw [sanLoop_skip hml hcl]; exact ih prev n
      | some r =>
        rcases hdd : (r == '-' && prev == '-') with _ | _
        · -- the character is written
          obtain ⟨ih1, ih2, ih3⟩ := ih r (n + 1)
          rw [sanLoop_write hml hcl hdd]
          refine ⟨?_, ?_, ?_⟩
          · intro x hx
            rcases List.mem_cons.mp hx with hx | hx
            · subst hx
              exact classify_self hcl
            · exact ih1 x hx
          · show noAdjDash (prev :: r :: sanLoop ml rest r (n + 1)) = true
            have hpd : (prev == '-' && r == '-') = false := by
              rw [Bool.and_comm]
              exact hdd
            simp only [noAdjDash, hpd, Bool.not_false, Bool.true_and]
            exact ih2
          · simp only [List.length_cons]
            omega
        · rw [sanLoop_collapse hml hcl hdd]
          exact ih prev n

/-- A list of switch fixed points with no adjacent dashes (also against the
virtual previous character) and within the cap passes through the loop
unchanged. -/
theorem sanLoop_id (ml : Nat) (s : List Char) : ∀ (prev : Char) (n : Nat),
    (∀ c ∈ s, classify c = some c) → noAdjDash (prev :: s) = true →
    s.length + n ≤ ml → sanLoop ml s prev n = s := by
  induction s with
  | nil => intro prev n _ _ _; rfl
  | cons c rest ih =>
    intro prev n hcl hadj hlen
    rw [List.length_cons] at hlen
    have hml : ¬ ml ≤ n := by omega
    have hc : classify c = some c := hcl c (List.mem_cons_self c rest)
    have hpd : (prev == '-' && c == '-') = false := by
      have h1 := ((Bool.and_eq_true _ _).mp hadj).1
      rcases hb : (prev == '-' && c == '-') with _ | _
      · rfl
      · rw [hb] at h1
        exact absurd h1 (by simp)
    have hdd : (c == '-' && prev == '-') = false := by
      rw [Bool.and_comm]
      exact hpd
    rw [sanLoop_write hml hc hdd]
    congr 1
    refine ih c (n + 1) (fun x hx => hcl x (List.mem_cons_of_mem c hx))
      (noAdjDash_tail hadj) (by omega)

theorem dropTrailingDash_subset {l : List Char} : ∀ c ∈ dropTrailingDash l, c ∈ l := by
  intro c hc
  unfold dropTrailingDash at hc
  by_cases hd : l.getLast? = some '-'
  · rw [if_pos hd] at hc
    exact (List.dropLast_sublist l).subset hc
  · rwa [if_neg hd] at hc

theorem dropTrailingDash_length (l : List Char) :
    (dropTrailingDash l).length ≤ l.length := by
  unfold dropTrailingDash
  by_cases hd : l.getLast? = some '-'
  · rw [if_pos hd, List.length_dropLast]
    omega
  · rw [if_neg hd]

theorem noAdjDash_cons_dropLast {l : List Char} : ∀ (p : Char),
    noAdjDash (p :: l) = true → noAdjDash (p :: l.dropLast) = true := by
  induction l with
  | nil => intro p _; rfl
  | cons a t ih =>
    intro p h
    cases t with
    | nil => rfl
    | cons b t2 =>
      have h1 : (!(p == '-' && a == '-')) = true := ((Bool.and_eq_true _ _).mp h).1
      have h2 : noAdjDash (a :: b :: t2) = true := ((Bool.and_eq_true _ _).mp h).2
      have hstep : (a :: b :: t2).dropLast = a :: (b :: t2).dropLast := rfl
      show noAdjDash (p :: (a :: b :: t2).dropLast) = true
      rw [hstep]
      have hrec := ih a h2
      cases hdl : (b :: t2).dropLast with
      | nil => simp [noAdjDash, h1]
      | cons x xs =>
        rw [hdl] at hrec
        simp only [noAdjDash, h1, Bool.true_and]
        exact hrec

theorem noAdjDash_cons_dropTrailing {l : List Char} (p : Char)
    (h : noAdjDash (p :: l) = true) : noAdjDash (p :: dropTrailingDash l) = true := by
  unfold dropTrailingDash
  by_cases hd : l.getLast? = some '-'
  · rw [if_pos hd]
    exact noAdjDash_cons_dropLast p h
  · rwa [if_neg hd]

/-- Dropping the last character of a dash-collapsed list that ends in a dash
leaves a list that does not end in a dash. -/
theorem dropLast_getLast_ne_dash : ∀ (l : List Char), noAdjDash l = true →
    l.getLast? = some '-' → l.dropLast.getLast? ≠ some '-' := by
  intro l
  induction l with
  | nil => intro _ hl; cases hl
  | cons a t ih =>
    intro h hl
    cases t with
    | nil => simp
    | cons b t2 =>
      have h1 : (!(a == '-' && b == '-')) = true := ((Bool.and_eq_true _ _).mp h).1
      have h2 : noAdjDash (b :: t2) = true := ((Bool.and_eq_true _ _).mp h).2
      have hl2 : (b :: t2).getLast? = some '-' := by
        rwa [List.getLast?_cons_cons] at hl
      cases t2 with
      | nil =>
        -- the list is [a, b] with b a dash, so a is not a dash
        have hb : b = '-' := by simpa using hl2
        subst hb
        have ha : ¬ (a = '-') := by
          intro hcon
          subst hcon
          simp at h1
        simpa using ha
      | cons c t3 =>
        have hstep : (a :: b :: c :: t3).dropLast = a :: (b :: c :: t3).dropLast := rfl
        rw [hstep]
        cases hdl : (b :: c :: t3).dropLast with
        | nil => exact absurd hdl (by simp)
        | cons x xs =>
          rw [List.getLast?_cons_cons]
          rw [← hdl]
          exact ih h2 hl2

/-- After removing one trailing dash from a dash-collapsed list, the last
character is not a dash. -/
theorem dropTrailingDash_last {l : List Char} (h : noAdjDash l = true) :
    (dropTrailingDash l).getLast? ≠ some '-' := by
  unfold dropTrailingDash
  by_cases hd : l.getLast? = some '-'
  · rw [if_pos hd]
    exact dropLast_getLast_ne_dash l h hd
  · rwa [if_neg hd]

/-- A string made of switch fixed points, dash-collapsed, within the cap, not
ending in a dash and non-empty is a fixed point of the sanitizer. -/
theorem sanitizeFilename_fixed {t : String}
    (hmem : ∀ c ∈ t.data, classify c = some c)
    (hadj : noAdjDash ('-' :: t.data) = true)
    (hlen : t.data.length ≤ 100)
    (hlast : t.data.getLast? ≠ some '-')
    (hne : t.data ≠ []) :
    sanitizeFilename t 100 = t := by
  have h1 : sanLoop 100 t.data '-' 0 = t.data :=
    sanLoop_id 100 t.data '-' 0 hmem hadj (by omega)
  have h2 : dropTrailingDash t.data = t.data := by
    unfold dropTrailingDash
    rw [if_neg hlast]
  unfold sanitizeFilename
  rw [h1, h2, if_neg hne]

/-- C8: the filename sanitizer with the 100-code-point cap is idempotent. -/
theorem sanitizeFilename_idempotent (s : String) :
    sanitizeFilename (sanitizeFilename s 100) 100 = sanitizeFilename s 100 := by
  obtain ⟨hmem, hadj, hlen⟩ := sanLoop_good 100 s.data '-' 0
  by_cases hempty : dropTrailingDash (sanLoop 100 s.data '-' 0) = []
  · have hs : sanitizeFilename s 100 = defaultFileName := by
      unfold sanitizeFilename
      rw [if_pos hempty]
    rw [hs]
    decide
  · have hs : sanitizeFilename s 100 =
        String.mk (dropTrailingDash (sanLoop 100 s.data '-' 0)) := by
      unfold sanitizeFilename
      rw [if_neg hempty]
    rw [hs]
    apply sanitizeFilename_fixed
    · intro c hc
      exact hmem c (dropTrailingDash_subset c hc)
    · exact noAdjDash_cons_dropTrailing '-' hadj
    · show (dropTrailingDash (sanLoop 100 s.data '-' 0)).length ≤ 100
      have := dropTrailingDash_length (sanLoop 100 s.data '-' 0)
      omega
    · exact dropTrailingDash_last (noAdjDash_tail hadj)
    · exact hempty

/-- C9: with uniqueNum = 0, a hint whose sanitized base uppercases to a
Windows reserved device name gets an underscore appended before the required
extension; with uniqueNum > 0 the dash-number suffix is appended instead and
no underscore is added. -/
theorem constructFileName_reserved_names :
    (∀ hint ext : String, isReservedName (goToUpper (sanitizedBase hint)) = true →
      constructFileName hint ext 0 = sanitizedBase hint ++ ("_") ++ ext) ∧
    (∀ (hint ext : String) (n : Nat), 0 < n →
      constructFileName hint ext n = sanitizedBase hint ++ ("-") ++ toString n ++ ext) := by
  constructor
  · intro hint ext h
    by_cases hh : hint = ""
    · subst hh
      rw [show sanitizedBase ("") = defaultFileName from by decide] at h
      exact absurd h (by decide)
    · unfold constructFileName
      rw [if_neg hh, if_neg (by decide : ¬ 0 < 0), if_pos h]
  · intro hint ext n hn
    by_cases hh : hint = ""
    · subst hh
      unfold constructFileName
      rw [if_pos rfl, if_pos hn,
        show sanitizedBase ("") = defaultFileName from by decide]
    · unfold constructFileName
      rw [if_neg hh, if_pos hn]

/-- Witness for C9 at concrete inputs: the reserved hint con.txt with no
unique number gets the underscore, and the reserved hint AUX with unique
number 2 gets the dash suffix instead. -/
theorem constructFileName_reserved_names_witness :
    constructFileName ("con.txt") (".png") 0 =
      sanitizedBase ("con.txt") ++ ("_") ++ (".png") ∧
    constructFileName ("AUX") (".log") 2 =
      sanitizedBase ("AUX") ++ ("-") ++ toString 2 ++ (".log") := by
  constructor
  · exact constructFileName_reserved_names.1 ("con.txt") (".png") (by decide)
  · exact constructFileName_reserved_names.2 ("AUX") (".log") 2 (by decide)

/-! ## MIME registry (internal/loader/mime.go) -/

structure FileType where
  MIMEType : String
  Magic : List Nat
  Extensions : List String
deriving DecidableEq

/-- FileType.Extension: the first (canonical) extension, empty if none. -/
def FileType.Extension (f : FileType) : String :=
  match f.Extensions with
  | [] => ""
  | e :: _ => e

/-- The fixed registry of recognized file types. -/
def fileTypes : List FileType :=
  [ { MIMEType := ("image/jpeg"), Magic := [0xFF, 0xD8, 0xFF],
      Extensions := [(".jpg"), (".jpeg")] },
    { MIMEType := ("image/png"), Magic := [0x89, 0x50, 0x4E, 0x47],
      Extensions := [(".png")] },
    { MIMEType := ("image/gif"), Magic := [0x47, 0x49, 0x46, 0x38],
      Extensions := [(".gif")] },
    { MIMEType := ("application/pdf"), Magic := [0x25, 0x50, 0x44, 0x46],
      Extensions := [(".pdf")] },
    { MIMEType := ("application/zip"), Magic := [0x50, 0x4B, 0x03, 0x04],
      Extensions := [(".zip")] } ]

/-- bytes.HasPrefix(magic, sig): sig is a leading run of magic. -/
def magicMatches : List Nat → List Nat → Bool
  | _, [] => true
  | [], _ :: _ => false
  | x :: xs, y :: ys => (x == y) && magicMatches xs ys

/-- getFileTypeBySignature: the first registry entry whose magic bytes lead
the sniffed prefix; none models the "unknown file type" error. -/
def getFileTypeBySignature (magic : List Nat) : Option FileType :=
  fileTypes.find? (fun ft => magicMatches magic ft.Magic)

/-! ## Header helpers (the loader's mime/header parsing file) -/

/-- strings.TrimSpace using the Unicode space predicate. -/
def trimSpace (s : String) : String :=
  String.mk (((s.data.dropWhile goIsSpace).reverse.dropWhile goIsSpace).reverse)

/-- getContentType: everything before the first semicolon, trimmed; headers
without a semicolon pass unchanged (and untrimmed). -/
def getContentType (h : String) : String :=
  if h.data.contains ';' then
    trimSpace (String.mk (h.data.takeWhile (fun c => c != ';')))
  else h

def parseDecAux : List Char → Nat → Option Nat
  | [], acc => some acc
  | c :: rest, acc =>
    if c.isDigit then parseDecAux rest (acc * 10 + (c.toNat - 48))
    else none

/-- strconv.ParseInt with base 10 and 64-bit range: an optional sign, at
least one digit, all digits, and the value must fit in int64. -/
def parseInt64 (s : String) : Option Int :=
  match s.data with
  | [] => none
  | c :: rest =>
    if c == '+' then
      match rest with
      | [] => none
      | _ => (parseDecAux rest 0).bind (fun v =>
          if (v : Int) < 2 ^ 63 then some (v : Int) else none)
    else if c == '-' then
      match rest with
      | [] => none
      | _ => (parseDecAux rest 0).bind (fun v =>
          if (v : Int) ≤ 2 ^ 63 then some (-(v : Int)) else none)
    else
      (parseDecAux (c :: rest) 0).bind (fun v =>
        if (v : Int) < 2 ^ 63 then some (v : Int) else none)

/-- getContentLength: empty or malformed Content-Length headers count as 0. -/
def getContentLength (h : String) : Int :=
  if h = "" then 0
  else match parseInt64 h with
       | some v => v
       | none => 0

/-- http.StatusText for the standard codes (a representative subset; unknown
codes map to the empty string as in net/http). -/
def statusText (code : Nat) : String :=
  match code with
  | 100 => "Continue"
  | 101 => "Switching Protocols"
  | 200 => "OK"
  | 201 => "Created"
  | 202 => "Accepted"
  | 204 => "No Content"
  | 206 => "Partial Content"
  | 301 => "Moved Permanently"
  | 302 => "Found"
  | 303 => "See Other"
  | 304 => "Not Modified"
  | 307 => "Temporary Redirect"
  | 308 => "Permanent Redirect"
  | 400 => "Bad Request"
  | 401 => "Unauthorized"
  | 402 => "Payment Required"
  | 403 => "Forbidden"
  | 404 => "Not Found"
  | 405 => "Method Not Allowed"
  | 406 => "Not Acceptable"
  | 408 => "Request Timeout"
  | 409 => "Conflict"
  | 410 => "Gone"
  | 411 => "Length Required"
  | 412 => "Precondition Failed"
  | 415 => "Unsupported Media Type"
  | 429 => "Too Many Requests"
  | 500 => "Internal Server Error"
  | 501 => "Not Implemented"
  | 502 => "Bad Gateway"
  | 503 => "Service Unavailable"
  | 504 => "Gateway Timeout"
  | 505 => "HTTP Version Not Supported"
  | _ => ""

/-! ## JSON encoding of file records (Go encoding/json behaviour) -/

def hexDigit (n : Nat) : Char :=
  if n < 10 then Char.ofNat (48 + n) else Char.ofNat (87 + n)

/-- One character of encoding/json string escaping with HTML escaping on
(the json.Encoder default): quote, backslash, the newline family, other
control characters, the HTML-significant characters and the line/paragraph
separators. -/
def escapeJSONChar (c : Char) : List Char :=
  let n := c.toNat
  if n == 34 then [Char.ofNat 92, Char.ofNat 34]
  else if n == 92 then [Char.ofNat 92, Char.ofNat 92]
  else if n == 10 then [Char.ofNat 92, 'n']
  else if n == 13 then [Char.ofNat 92, 'r']
  else if n == 9 then [Char.ofNat 92, 't']
  else if n < 32 then [Char.ofNat 92, 'u', '0', '0', hexDigit (n / 16), hexDigit (n % 16)]
  else if n == 60 then [Char.ofNat 92, 'u', '0', '0', '3', 'c']
  else if n == 62 then [Char.ofNat 92, 'u', '0', '0', '3', 'e']
  else if n == 38 then [Char.ofNat 92, 'u', '0', '0', '2', '6']
  else if n == 0x2028 then [Char.ofNat 92, 'u', '2', '0', '2', '8']
  else if n == 0x2029 then [Char.ofNat 92, 'u', '2', '0', '2', '9']
  else [c]

def quoteJSON (s : String) : String :=
  String.mk ((Char.ofNat 34 :: (s.data.map escapeJSONChar).flatten) ++ [Char.ofNat 34])

/-- The encoded fields of one File in struct order with omitempty semantics;
the ID field carries the json tag "-" and is never emitted. -/
def fileJSONFields (f : File) : List String :=
  (if f.URL = "" then [] else [("\x22url\x22: ") ++ quoteJSON f.URL]) ++
  (if f.ContentType = "" then []
   else [("\x22content_type\x22: ") ++ quoteJSON f.ContentType]) ++
  (if f.RealType = "" then [] else [("\x22real_type\x22: ") ++ quoteJSON f.RealType]) ++
  (if f.OrigName = "" then [] else [("\x22orig_name\x22: ") ++ quoteJSON f.OrigName]) ++
  (if f.Name = "" then [] else [("\x22name\x22: ") ++ quoteJSON f.Name]) ++
  (if f.Size = 0 then [] else [("\x22size\x22: ") ++ toString f.Size]) ++
  (if f.Status = 0 then [] else [("\x22status\x22: ") ++ toString f.Status]) ++
  (if f.ErrorMsg = "" then [] else [("\x22error_msg\x22: ") ++ quoteJSON f.ErrorMsg])

/-- One File as a 4-space-indented JSON object placed at indentation ind. -/
def encodeFileObj (ind : String) (f : File) : String :=
  match fileJSONFields f with
  | [] => "\x7b\x7d"
  | fields =>
    ("\x7b\n") ++
    String.intercalate (",\n") (fields.map (fun fl => ind ++ ("    ") ++ fl)) ++
    ("\n") ++ ind ++ ("\x7d")

/-- The content of the status.json entry: the json.Encoder output for the
file-record slice with SetIndent of four spaces (Encode appends a newline). -/
def statusJSON (files : List File) : String :=
  match files with
  | [] => "[]\n"
  | _ =>
    ("[\n") ++
    String.intercalate (",\n") (files.map (fun f => ("    ") ++ encodeFileObj ("    ") f)) ++
    ("\n]\n")

/-! ## Loader (internal/loader/loader.go) -/

inductive EntryData where
  | bytes (content : List Nat)
  | text (content : String)
deriving DecidableEq

/-- One entry written through the ZIP writer: its name and its payload. -/
structure ZipEntry where
  name : String
  data : EntryData
deriving DecidableEq

/-- The defer in CheckFile and downloadFile: a non-200 record with an empty
message gets the standard status text. -/
def finalizeFile (f : File) : File :=
  if f.Status ≠ 200 ∧ f.ErrorMsg = "" then { f with ErrorMsg := statusText f.Status }
  else f

/-- The environment of one HEAD probe: URL parsing fails, request
construction fails (the only fatal error), the HTTP client rejects with the
SSRF-wrapping error, another transport error occurs, or a response arrives. -/
structure HeadResp where
  statusCode : Nat
  contentLengthHeader : String
  contentTypeHeader : String
  dispositionFilename : String
deriving DecidableEq

inductive HeadEnv where
  | invalidUrl (errText : String)
  | reqFail
  | blocked
  | netError
  | resp (r : HeadResp)
deriving DecidableEq

/-- CheckFile before the deferred message fill-in. The response's
Content-Disposition filename parameter is provided pre-parsed by the
environment (mime.ParseMediaType is standard-library behaviour). -/
def checkFileCore (valid : String → Bool) (env : HeadEnv) (uri : String) : File × Bool :=
  match env with
  | HeadEnv.invalidUrl e =>
    ({ emptyFile with URL := uri, Status := 400, ErrorMsg := ("invalid url: ") ++ e }, false)
  | HeadEnv.reqFail =>
    ({ emptyFile with URL := uri, Status := 500 }, true)
  | HeadEnv.blocked =>
    ({ emptyFile with URL := uri, Status := 403 }, false)
  | HeadEnv.netError =>
    ({ emptyFile with URL := uri, Status := 502 }, false)
  | HeadEnv.resp r =>
    if r.statusCode ≠ 200 then
      ({ emptyFile with URL := uri, Status := r.statusCode }, false)
    else if !(valid (getContentType r.contentTypeHeader)) then
      ({ emptyFile with
          URL := uri, Status := 403,
          Size := getContentLength r.contentLengthHeader,
          ContentType := getContentType r.contentTypeHeader,
          ErrorMsg := ("file type \x22") ++ getContentType r.contentTypeHeader ++
            ("\x22 is not allowed") }, false)
    else
      ({ emptyFile with
          URL := uri, Status := 200,
          Size := getContentLength r.contentLengthHeader,
          ContentType := getContentType r.contentTypeHeader,
          OrigName := r.dispositionFilename }, false)

/-- CheckFile: the record for one URL and whether a fatal error occurred. -/
def checkFile (valid : String → Bool) (env : HeadEnv) (uri : String) : File × Bool :=
  ((finalizeFile (checkFileCore valid env uri).1), (checkFileCore valid env uri).2)

/-- Check: empty input returns nothing; a single URL runs synchronously; the
general case fans out one worker per URL, joins the results in input order,
and aggregates only the fatal errors (errors.Join is nil exactly when every
per-URL error is nil). -/
def check (valid : String → Bool) (fetch : String → HeadEnv) (urls : List String) :
    List File × Bool :=
  match urls with
  | [] => ([], false)
  | [u] => ([(checkFile valid (fetch u) u).1], (checkFile valid (fetch u) u).2)
  | _ =>
    (urls.map (fun u => (checkFile valid (fetch u) u).1),
     urls.any (fun u => (checkFile valid (fetch u) u).2))

/-- The environment of one GET: as for HEAD, with a response carrying the
body bytes the server delivers and whether the stream then ends cleanly
(eof = false means the read after the delivered bytes fails). -/
structure GetResp where
  statusCode : Nat
  contentTypeHeader : String
  dispositionFilename : String
  body : List Nat
  eof : Bool
deriving DecidableEq

inductive GetEnv where
  | invalidUrl (errText : String)
  | reqFail
  | blocked
  | netError
  | resp (r : GetResp)
deriving DecidableEq

/-- The outcome of downloadFile: the record, the ZIP entry it created (if it
reached the entry-creation point) and whether a fatal error occurred. -/
structure DLResult where
  file : File
  entry : Option ZipEntry
  fatal : Bool
deriving DecidableEq

/-- downloadFile before the deferred message fill-in: GET the URL, check the
status, the declared Content-Type, read the first chunk (at least 8 bytes
unless the stream ends first; a failed read before that records 502 with no
entry), identify the type by magic prefix, check it against the allow-list,
create the ZIP entry named by the sanitizer with the sniffed type's canonical
extension, and stream the body; a read failure after entry creation records
502 with the entry already in the archive. Size is the number of body bytes
read so far at each exit point (the first chunk holds at most 4096 bytes). -/
def downloadFileCore (valid : String → Bool) (env : GetEnv) (uniqueNum : Nat)
    (uri : String) : DLResult :=
  match env with
  | GetEnv.invalidUrl e =>
    { file := { emptyFile with
        URL := uri, Status := 400,
        ErrorMsg := ("invalid url: ") ++ e },
      entry := none, fatal := false }
  | GetEnv.reqFail =>
    { file := { emptyFile with URL := uri, Status := 500 }, entry := none, fatal := true }
  | GetEnv.blocked =>
    { file := { emptyFile with URL := uri, Status := 403 }, entry := none, fatal := false }
  | GetEnv.netError =>
    { file := { emptyFile with URL := uri, Status := 502 }, entry := none, fatal := false }
  | GetEnv.resp r =>
    if r.statusCode ≠ 200 then
      { file := { emptyFile with URL := uri, Status := r.statusCode },
        entry := none, fatal := false }
    else if !(valid (getContentType r.contentTypeHeader)) then
      { file := { emptyFile with
          URL := uri, Status := 403,
          ContentType := getContentType r.contentTypeHeader,
          ErrorMsg := ("file type \x22") ++ getContentType r.contentTypeHeader ++
            ("\x22 is not allowed") },
        entry := none, fatal := false }
    else if r.body.length < 8 && !r.eof then
      { file := { emptyFile with
          URL := uri, Status := 502,
          ContentType := getContentType r.contentTypeHeader,
          OrigName := r.dispositionFilename, Size := (r.body.length : Int) },
        entry := none, fatal := false }
    else
      match getFileTypeBySignature (r.body.take 8) with
      | none =>
        { file := { emptyFile with
            URL := uri, Status := 403,
            ContentType := getContentType r.contentTypeHeader,
            OrigName := r.dispositionFilename,
            Size := ((min r.body.length 4096 : Nat) : Int),
            ErrorMsg := ("unknown file type") },
          entry := none, fatal := false }
      | some ft =>
        if !(valid ft.MIMEType) then
          { file := { emptyFile with
              URL := uri, Status := 403,
              ContentType := getContentType r.contentTypeHeader,
              OrigName := r.dispositionFilename, RealType := ft.MIMEType,
              Size := ((min r.body.length 4096 : Nat) : Int),
              ErrorMsg := ("file type \x22") ++ ft.MIMEType ++ ("\x22 is not allowed") },
            entry := none, fatal := false }
        else if r.eof then
          { file := { emptyFile with
              URL := uri, Status := 200,
              ContentType := getContentType r.contentTypeHeader,
              OrigName := r.dispositionFilename, RealType := ft.MIMEType,
              Name := constructFileName r.dispositionFilename ft.Extension uniqueNum,
              Size := (r.body.length : Int) },
            entry := some { name := constructFileName r.dispositionFilename ft.Extension uniqueNum,
                            data := EntryData.bytes r.body },
            fatal := false }
        else
          { file := { emptyFile with
              URL := uri, Status := 502,
              ContentType := getContentType r.contentTypeHeader,
              OrigName := r.dispositionFilename, RealType := ft.MIMEType,
              Name := constructFileName r.dispositionFilename ft.Extension uniqueNum,
              Size := (r.body.length : Int) },
            entry := some { name := constructFileName r.dispositionFilename ft.Extension uniqueNum,
                            data := EntryData.bytes r.body },
            fatal := false }

def downloadFile (valid : String → Bool) (env : GetEnv) (uniqueNum : Nat)
    (uri : String) : DLResult :=
  { downloadFileCore valid env uniqueNum uri with
    file := finalizeFile (downloadFileCore valid env uniqueNum uri).file }

/-- The sequential download loop with its 1-based unique numbers; a fatal
result stops the loop (its record is still appended). -/
def downloadGo (valid : String → Bool) (fetch : String → GetEnv) :
    List String → Nat → List DLResult
  | [], _ => []
  | u :: rest, i =>
    if (downloadFile valid (fetch u) i u).fatal then [downloadFile valid (fetch u) i u]
    else downloadFile valid (fetch u) i u :: downloadGo valid fetch rest (i + 1)

structure DownloadResult where
  files : List File
  entries : List ZipEntry
  fatal : Bool
deriving DecidableEq

/-- Download: run the loop; without a fatal error, append the status.json
entry holding the JSON of every record (written even if every file failed);
a fatal error leaves the archive with the entries created so far. -/
def download (valid : String → Bool) (fetch : String → GetEnv) (urls : List String) :
    DownloadResult :=
  if (downloadGo valid fetch urls 1).any (fun res => res.fatal) then
    { files := (downloadGo valid fetch urls 1).map (fun res => res.file),
      entries := (downloadGo valid fetch urls 1).filterMap (fun res => res.entry),
      fatal := true }
  else
    { files := (downloadGo valid fetch urls 1).map (fun res => res.file),
      entries := (downloadGo valid fetch urls 1).filterMap (fun res => res.entry) ++
        [{ name := ("status.json"),
           data := EntryData.text (statusJSON
             ((downloadGo valid fetch urls 1).map (fun res => res.file))) }],
      fatal := false }

/-! ### Loader lemmas -/

theorem finalizeFile_status (f : File) : (finalizeFile f).Status = f.Status := by
  unfold finalizeFile
  split <;> rfl

theorem finalizeFile_name (f : File) : (finalizeFile f).Name = f.Name := by
  unfold finalizeFile
  split <;> rfl

theorem finalizeFile_of_msg {f : File} (h : f.ErrorMsg ≠ "") : finalizeFile f = f := by
  unfold finalizeFile
  rw [if_neg (fun hc => h hc.2)]

theorem downloadFile_status (valid : String → Bool) (env : GetEnv) (n : Nat) (uri : String) :
    (downloadFile valid env n uri).file.Status =
      (downloadFileCore valid env n uri).file.Status := by
  simp [downloadFile, finalizeFile_status]

theorem downloadFile_name (valid : String → Bool) (env : GetEnv) (n : Nat) (uri : String) :
    (downloadFile valid env n uri).file.Name =
      (downloadFileCore valid env n uri).file.Name := by
  simp [downloadFile, finalizeFile_name]

theorem downloadFile_entry (valid : String → Bool) (env : GetEnv) (n : Nat) (uri : String) :
    (downloadFile valid env n uri).entry = (downloadFileCore valid env n uri).entry := rfl

theorem downloadFile_fatal (valid : String → Bool) (env : GetEnv) (n : Nat) (uri : String) :
    (downloadFile valid env n uri).fatal = (downloadFileCore valid env n uri).fatal := rfl

/-- A 200 record from downloadFileCore implies every type gate passed and the
body ended cleanly. -/
theorem core_status200 {valid : String → Bool} {r : GetResp} {n : Nat} {uri : String}
    (h : (downloadFileCore valid (GetEnv.resp r) n uri).file.Status = 200) :
    valid (getContentType r.contentTypeHeader) = true ∧
    ∃ ft, getFileTypeBySignature (r.body.take 8) = some ft ∧
      valid ft.MIMEType = true ∧ r.eof = true := by
  simp only [downloadFileCore] at h
  split at h
  next h1 => exact absurd (by simpa using h) h1
  next h1 =>
    split at h
    next h2 => simp at h
    next h2 =>
      split at h
      next h3 => simp at h
      next h3 =>
        split at h
        next hsig => simp at h
        next ft hsig =>
          split at h
          next h4 => simp at h
          next h4 =>
            split at h
            next h5 => exact ⟨by simpa using h2, ft, hsig, by simpa using h4, h5⟩
            next h5 => simp at h

/-- When every gate up to the allow-list check of the sniffed type passes,
downloadFileCore creates the ZIP entry named by the sanitizer with the
sniffed type's canonical extension and fills the record's name with it; the
final status is 200 on a clean end of stream and 502 otherwise. -/
theorem core_entry_eq (valid : String → Bool) (r : GetResp) (n : Nat) (uri : String)
    (ft : FileType)
    (h200 : r.statusCode = 200)
    (hct : valid (getContentType r.contentTypeHeader) = true)
    (hchunk : (decide (r.body.length < 8) && !r.eof) = false)
    (hsig : getFileTypeBySignature (r.body.take 8) = some ft)
    (hft : valid ft.MIMEType = true) :
    (downloadFileCore valid (GetEnv.resp r) n uri).entry =
      some { name := constructFileName r.dispositionFilename ft.Extension n,
             data := EntryData.bytes r.body } ∧
    (downloadFileCore valid (GetEnv.resp r) n uri).file.Name =
      constructFileName r.dispositionFilename ft.Extension n ∧
    (if r.eof then (downloadFileCore valid (GetEnv.resp r) n uri).file.Status = 200
     else (downloadFileCore valid (GetEnv.resp r) n uri).file.Status = 502) := by
  simp only [downloadFileCore]
  rw [if_neg (by simp [h200])]
  rw [if_neg (by simp [hct])]
  rw [if_neg (by simp [hchunk])]
  rw [hsig]
  dsimp only
  rw [if_neg (by simp [hft])]
  by_cases heof : r.eof = true
  · rw [if_pos heof, if_pos heof]
    exact ⟨rfl, rfl, rfl⟩
  · rw [if_neg heof, if_neg heof]
    exact ⟨rfl, rfl, rfl⟩

/-- Reaching the signature lookup and finding no matching registry entry
records 403 with the unknown-file-type message. -/
theorem core_unknown_sig (valid : String → Bool) (r : GetResp) (n : Nat) (uri : String)
    (h200 : r.statusCode = 200)
    (hct : valid (getContentType r.contentTypeHeader) = true)
    (hchunk : (decide (r.body.length < 8) && !r.eof) = false)
    (hsig : getFileTypeBySignature (r.body.take 8) = none) :
    (downloadFileCore valid (GetEnv.resp r) n uri).file.Status = 403 ∧
    (downloadFileCore valid (GetEnv.resp r) n uri).file.ErrorMsg = ("unknown file type") := by
  simp only [downloadFileCore]
  rw [if_neg (by simp [h200])]
  rw [if_neg (by simp [hct])]
  rw [if_neg (by simp [hchunk])]
  rw [hsig]
  exact ⟨rfl, rfl⟩

/-- C2: a record ends 200 (with its payload written to the archive) only when
both the declared Content-Type and the sniffed type pass the allow-list; when
both pass, the entry name is the sanitizer output with the sniffed type's
canonical extension; an unrecognized magic prefix records 403 with the
unknown-file-type message. -/
theorem downloadFile_mime_gate :
    ∀ (valid : String → Bool) (env : GetEnv) (n : Nat) (uri : String),
    ((downloadFile valid env n uri).file.Status = 200 →
      ∃ r ft, env = GetEnv.resp r ∧
        valid (getContentType r.contentTypeHeader) = true ∧
        getFileTypeBySignature (r.body.take 8) = some ft ∧
        valid ft.MIMEType = true ∧
        (downloadFile valid env n uri).entry =
          some { name := (downloadFile valid env n uri).file.Name,
                 data := EntryData.bytes r.body }) ∧
    (∀ r ft, env = GetEnv.resp r → r.statusCode = 200 →
      valid (getContentType r.contentTypeHeader) = true →
      (8 ≤ r.body.length ∨ r.eof = true) →
      getFileTypeBySignature (r.body.take 8) = some ft →
      valid ft.MIMEType = true →
      (downloadFile valid env n uri).file.Name =
        constructFileName r.dispositionFilename ft.Extension n) ∧
    (∀ r, env = GetEnv.resp r → r.statusCode = 200 →
      valid (getContentType r.contentTypeHeader) = true →
      (8 ≤ r.body.length ∨ r.eof = true) →
      getFileTypeBySignature (r.body.take 8) = none →
      (downloadFile valid env n uri).file.Status = 403 ∧
      (downloadFile valid env n uri).file.ErrorMsg = ("unknown file type")) := by
  intro valid env n uri
  refine ⟨?_, ?_, ?_⟩
  · intro h
    rw [downloadFile_status] at h
    cases env with
    | invalidUrl e => simp [downloadFileCore] at h
    | reqFail => simp [downloadFileCore] at h
    | blocked => simp [downloadFileCore] at h
    | netError => simp [downloadFileCore] at h
    | resp r =>
      obtain ⟨hct, ft, hsig, hft, heof⟩ := core_status200 h
      have hchunk : (decide (r.body.length < 8) && !r.eof) = false := by
        simp [heof]
      have h200 : r.statusCode = 200 := by
        by_contra hcon
        simp only [downloadFileCore] at h
        rw [if_pos (by simpa using hcon)] at h
        exact hcon (by simpa using h)
      obtain ⟨hentry, hname, _⟩ :=
        core_entry_eq valid r n uri ft h200 hct hchunk hsig hft
      refine ⟨r, ft, rfl, hct, hsig, hft, ?_⟩
      rw [downloadFile_entry, downloadFile_name, hentry, hname]
  · intro r ft henv h200 hct hchunk hsig hft
    subst henv
    have hchunk2 : (decide (r.body.length < 8) && !r.eof) = false := by
      rcases hchunk with h | h
      · simp [Nat.not_lt.mpr h]
      · simp [h]
    obtain ⟨_, hname, _⟩ :=
      core_entry_eq valid r n uri ft h200 hct hchunk2 hsig hft
    rw [downloadFile_name, hname]
  · intro r henv h200 hct hchunk hsig
    subst henv
    have hchunk2 : (decide (r.body.length < 8) && !r.eof) = false := by
      rcases hchunk with h | h
      · simp [Nat.not_lt.mpr h]
      · simp [h]
    obtain ⟨hst, hmsg⟩ :=
      core_unknown_sig valid r n uri h200 hct hchunk2 hsig
    constructor
    · rw [downloadFile_status, hst]
    · show (finalizeFile (downloadFileCore valid (GetEnv.resp r) n uri).file).ErrorMsg =
        ("unknown file type")
      rw [finalizeFile_of_msg (by rw [hmsg]; decide), hmsg]

/-- The allow-list admitting exactly image/jpeg, used by the concrete loader
scenarios below. -/
def jpegOnly : String → Bool := fun s => s == ("image/jpeg")

/-- A 200 JPEG response whose stream ends cleanly after nine bytes. -/
def goodResp : GetResp :=
  { statusCode := 200, contentTypeHeader := ("image/jpeg"),
    dispositionFilename := (""), body := [255, 216, 255, 3, 4, 5, 6, 7, 8],
    eof := true }

/-- A 200 response with an octet-stream body (no registry magic). -/
def badSigResp : GetResp :=
  { statusCode := 200, contentTypeHeader := ("image/jpeg"),
    dispositionFilename := (""), body := [0, 1, 2, 3, 4, 5, 6, 7, 8],
    eof := true }

/-- Witness for C2 at concrete inputs: a valid JPEG response yields the entry
with the sniffed extension, and a body with unknown leading bytes records 403
with the unknown-file-type message. -/
theorem downloadFile_mime_gate_witness :
    (∃ r ft, GetEnv.resp goodResp = GetEnv.resp r ∧
      jpegOnly (getContentType r.contentTypeHeader) = true ∧
      getFileTypeBySignature (r.body.take 8) = some ft ∧
      jpegOnly ft.MIMEType = true ∧
      (downloadFile jpegOnly (GetEnv.resp goodResp) 3 ("http://h/y")).entry =
        some { name := (downloadFile jpegOnly (GetEnv.resp goodResp) 3 ("http://h/y")).file.Name,
               data := EntryData.bytes r.body }) ∧
    ((downloadFile jpegOnly (GetEnv.resp badSigResp) 1 ("http://h/z")).file.Status = 403 ∧
     (downloadFile jpegOnly (GetEnv.resp badSigResp) 1 ("http://h/z")).file.ErrorMsg =
       ("unknown file type")) := by
  constructor
  · exact (downloadFile_mime_gate jpegOnly (GetEnv.resp goodResp) 3 ("http://h/y")).1
      (by decide)
  · exact (downloadFile_mime_gate jpegOnly (GetEnv.resp badSigResp) 1 ("http://h/z")).2.2
      badSigResp rfl (by decide) (by decide) (by decide) (by decide)

/-! ### Check lemmas -/

theorem checkFile_fatal_iff (valid : String → Bool) (env : HeadEnv) (uri : String) :
    (checkFile valid env uri).2 = true ↔ env = HeadEnv.reqFail := by
  cases env with
  | invalidUrl e => simp [checkFile, checkFileCore]
  | reqFail => simp [checkFile, checkFileCore]
  | blocked => simp [checkFile, checkFileCore]
  | netError => simp [checkFile, checkFileCore]
  | resp r =>
    simp only [checkFile, checkFileCore]
    split
    · simp
    · split <;> simp

theorem check_files_eq_map (valid : String → Bool) (fetch : String → HeadEnv) :
    ∀ urls, (check valid fetch urls).1 =
      urls.map (fun u => (checkFile valid (fetch u) u).1) := by
  intro urls
  match urls with
  | [] => rfl
  | [u] => rfl
  | u :: v :: rest => rfl

theorem check_fatal_eq_any (valid : String → Bool) (fetch : String → HeadEnv) :
    ∀ urls, (check valid fetch urls).2 =
      urls.any (fun u => (checkFile valid (fetch u) u).2) := by
  intro urls
  match urls with
  | [] => rfl
  | [u] => simp [check]
  | u :: v :: rest => rfl

/-- C4: Check produces exactly one record per URL in input order (empty input
returns empty, one URL runs through the single synchronous branch); the
per-URL failure modes are recorded in the file's status only (400 for an
unparseable URL, 403 for an egress-blocked probe, 502 for other transport
errors, 403 overriding a 200 when the declared Content-Type is not allowed)
and never make the operation fail; the operation's error aggregates exactly
the fatal request-construction failures. -/
theorem check_per_url_records :
    ∀ (valid : String → Bool) (fetch : String → HeadEnv),
    (check valid fetch [] = ([], false)) ∧
    (∀ u, check valid fetch [u] =
      ([(checkFile valid (fetch u) u).1], (checkFile valid (fetch u) u).2)) ∧
    (∀ urls, (check valid fetch urls).1 =
      urls.map (fun u => (checkFile valid (fetch u) u).1)) ∧
    (∀ urls, ((check valid fetch urls).2 = true ↔
      ∃ u ∈ urls, fetch u = HeadEnv.reqFail)) ∧
    (∀ u e, fetch u = HeadEnv.invalidUrl e →
      (checkFile valid (fetch u) u).1.Status = 400 ∧
      (checkFile valid (fetch u) u).2 = false) ∧
    (∀ u, fetch u = HeadEnv.blocked →
      (checkFile valid (fetch u) u).1.Status = 403 ∧
      (checkFile valid (fetch u) u).2 = false) ∧
    (∀ u, fetch u = HeadEnv.netError →
      (checkFile valid (fetch u) u).1.Status = 502 ∧
      (checkFile valid (fetch u) u).2 = false) ∧
    (∀ u r, fetch u = HeadEnv.resp r → r.statusCode = 200 →
      valid (getContentType r.contentTypeHeader) = false →
      (checkFile valid (fetch u) u).1.Status = 403 ∧
      (checkFile valid (fetch u) u).2 = false) := by
  intro valid fetch
  refine ⟨rfl, fun u => rfl, check_files_eq_map valid fetch, ?_, ?_, ?_, ?_, ?_⟩
  · intro urls
    rw [check_fatal_eq_any]
    rw [List.any_eq_true]
    constructor
    · rintro ⟨u, hu, hfat⟩
      exact ⟨u, hu, (checkFile_fatal_iff valid (fetch u) u).mp hfat⟩
    · rintro ⟨u, hu, henv⟩
      exact ⟨u, hu, (checkFile_fatal_iff valid (fetch u) u).mpr henv⟩
  · intro u e henv
    rw [henv]
    exact ⟨by simp [checkFile, checkFileCore, finalizeFile_status], rfl⟩
  · intro u henv
    rw [henv]
    exact ⟨by simp [checkFile, checkFileCore, finalizeFile_status], rfl⟩
  · intro u henv
    rw [henv]
    exact ⟨by simp [checkFile, checkFileCore, finalizeFile_status], rfl⟩
  · intro u r henv h200 hct
    rw [henv]
    constructor
    · show (finalizeFile (checkFileCore valid (HeadEnv.resp r) u).1).Status = 403
      rw [finalizeFile_status]
      simp only [checkFileCore]
      rw [if_neg (by simp [h200]), if_pos (by simp [hct])]
    · simp only [checkFile, checkFileCore]
      split
      · rfl
      · split <;> rfl

/-- The HEAD environments of the C4 witness: one URL per failure mode. -/
def headFetchDemo : String → HeadEnv := fun u =>
  if u = ("bad url") then HeadEnv.invalidUrl ("parse error")
  else if u = ("http://blocked/a") then HeadEnv.blocked
  else if u = ("http://down/b") then HeadEnv.netError
  else HeadEnv.resp { statusCode := 200, contentLengthHeader := ("12"),
                      contentTypeHeader := ("text/html"), dispositionFilename := ("") }

/-- Witness for C4 at concrete inputs: every failure mode lands in the
record's status with no operation-level error, and results keep input
order. -/
theorem check_per_url_records_witness :
    (check jpegOnly headFetchDemo [] = ([], false)) ∧
    ((check jpegOnly headFetchDemo
        [("bad url"), ("http://blocked/a"), ("http://down/b"), ("http://ok/c")]).1 =
      [("bad url"), ("http://blocked/a"), ("http://down/b"), ("http://ok/c")].map
        (fun u => (checkFile jpegOnly (headFetchDemo u) u).1)) ∧
    ((check jpegOnly headFetchDemo
        [("bad url"), ("http://blocked/a"), ("http://down/b"), ("http://ok/c")]).2 = true ↔
      ∃ u ∈ [("bad url"), ("http://blocked/a"), ("http://down/b"), ("http://ok/c")],
        headFetchDemo u = HeadEnv.reqFail) ∧
    ((checkFile jpegOnly (headFetchDemo ("bad url")) ("bad url")).1.Status = 400 ∧
      (checkFile jpegOnly (headFetchDemo ("bad url")) ("bad url")).2 = false) ∧
    ((checkFile jpegOnly (headFetchDemo ("http://blocked/a")) ("http://blocked/a")).1.Status = 403 ∧
      (checkFile jpegOnly (headFetchDemo ("http://blocked/a")) ("http://blocked/a")).2 = false) ∧
    ((checkFile jpegOnly (headFetchDemo ("http://down/b")) ("http://down/b")).1.Status = 502 ∧
      (checkFile jpegOnly (headFetchDemo ("http://down/b")) ("http://down/b")).2 = false) ∧
    ((checkFile jpegOnly (headFetchDemo ("http://ok/c")) ("http://ok/c")).1.Status = 403 ∧
      (checkFile jpegOnly (headFetchDemo ("http://ok/c")) ("http://ok/c")).2 = false) := by
  refine ⟨(check_per_url_records jpegOnly headFetchDemo).1,
    (check_per_url_records jpegOnly headFetchDemo).2.2.1 _,
    (check_per_url_records jpegOnly headFetchDemo).2.2.2.1 _,
    (check_per_url_records jpegOnly headFetchDemo).2.2.2.2.1 ("bad url") ("parse error")
      rfl,
    (check_per_url_records jpegOnly headFetchDemo).2.2.2.2.2.1 ("http://blocked/a")
      rfl,
    (check_per_url_records jpegOnly headFetchDemo).2.2.2.2.2.2.1 ("http://down/b")
      rfl,
    (check_per_url_records jpegOnly headFetchDemo).2.2.2.2.2.2.2 ("http://ok/c")
      { statusCode := 200, contentLengthHeader := ("12"),
        contentTypeHeader := ("text/html"), dispositionFilename := ("") }
      rfl rfl rfl⟩

/-! ### Download archive layout -/

theorem downloadGo_length (valid : String → Bool) (fetch : String → GetEnv) :
    ∀ (urls : List String) (i : Nat),
    (downloadGo valid fetch urls i).any (fun res => res.fatal) = false →
    (downloadGo valid fetch urls i).length = urls.length := by
  intro urls
  induction urls with
  | nil => intro i _; rfl
  | cons u rest ih =>
    intro i hno
    by_cases hf : (downloadFile valid (fetch u) i u).fatal = true
    · rw [downloadGo, if_pos hf] at hno
      simp at hno
      exact absurd hf (by simp [hno])
    · rw [downloadGo, if_neg hf] at hno ⊢
      simp only [List.any_cons, Bool.or_eq_false_iff] at hno
      simp only [List.length_cons, ih (i + 1) hno.2]

theorem mem_downloadGo (valid : String → Bool) (fetch : String → GetEnv) :
    ∀ (urls : List String) (i : Nat) (res : DLResult),
    res ∈ downloadGo valid fetch urls i →
    ∃ u j, res = downloadFile valid (fetch u) j u := by
  intro urls
  induction urls with
  | nil => intro i res h; simp [downloadGo] at h
  | cons u rest ih =>
    intro i res h
    by_cases hf : (downloadFile valid (fetch u) i u).fatal = true
    · rw [downloadGo, if_pos hf] at h
      rcases List.mem_singleton.mp h with rfl
      exact ⟨u, i, rfl⟩
    · rw [downloadGo, if_neg hf] at h
      rcases List.mem_cons.mp h with rfl | h
      · exact ⟨u, i, rfl⟩
      · exact ih (i + 1) res h

/-- A downloadFile result has a ZIP entry exactly in the branches that
reached zipWriter.Create: final status 200, or final status 502 after a
mid-stream read failure. -/
theorem downloadFile_entry_status (valid : String → Bool) (env : GetEnv) (n : Nat)
    (uri : String) :
    ((downloadFile valid env n uri).file.Status = 200 →
      ((downloadFile valid env n uri).entry).isSome = true) ∧
    (((downloadFile valid env n uri).entry).isSome = true →
      (downloadFile valid env n uri).file.Status = 200 ∨
      (downloadFile valid env n uri).file.Status = 502) := by
  rw [downloadFile_entry]
  constructor
  · intro h
    rw [downloadFile_status] at h
    cases env with
    | invalidUrl e => simp [downloadFileCore] at h
    | reqFail => simp [downloadFileCore] at h
    | blocked => simp [downloadFileCore] at h
    | netError => simp [downloadFileCore] at h
    | resp r =>
      obtain ⟨hct, ft, hsig, hft, heof⟩ := core_status200 h
      have hchunk : (decide (r.body.length < 8) && !r.eof) = false := by
        simp [heof]
      have h200 : r.statusCode = 200 := by
        by_contra hcon
        simp only [downloadFileCore] at h
        rw [if_pos (by simpa using hcon)] at h
        exact hcon (by simpa using h)
      obtain ⟨hentry, _, _⟩ :=
        core_entry_eq valid r n uri ft h200 hct hchunk hsig hft
      rw [hentry]
      rfl
  · intro h
    rw [downloadFile_status]
    cases env with
    | invalidUrl e => simp [downloadFileCore] at h
    | reqFail => simp [downloadFileCore] at h
    | blocked => simp [downloadFileCore] at h
    | netError => simp [downloadFileCore] at h
    | resp r =>
      simp only [downloadFileCore] at h ⊢
      by_cases h1 : r.statusCode ≠ 200
      · rw [if_pos h1] at h
        simp at h
      · rw [if_neg h1] at h ⊢
        by_cases h2 : (!(valid (getContentType r.contentTypeHeader))) = true
        · rw [if_pos h2] at h
          simp at h
        · rw [if_neg h2] at h ⊢
          by_cases h3 : (decide (r.body.length < 8) && !r.eof) = true
          · rw [if_pos h3] at h
            simp at h
          · rw [if_neg h3] at h ⊢
            generalize hsig : getFileTypeBySignature (r.body.take 8) = sig at h ⊢
            cases sig with
            | none =>
              simp at h
            | some ft =>
              dsimp only at h ⊢
              by_cases h4 : (!(valid ft.MIMEType)) = true
              · rw [if_pos h4] at h
                simp at h
              · rw [if_neg h4] at h ⊢
                by_cases h5 : r.eof = true
                · rw [if_pos h5] at h ⊢
                  exact Or.inl rfl
                · rw [if_neg h5] at h ⊢
                  exact Or.inr rfl

/-- C3 (amended): without a fatal error, the archive consists of the entries
created by the per-URL downloads in input order — one per file that ended 200,
plus one per file that failed 502 mid-stream after its entry was created —
followed by exactly one status.json entry holding the JSON array of every
record, written even when every download failed. -/
theorem download_zip_layout :
    ∀ (valid : String → Bool) (fetch : String → GetEnv) (urls : List String),
    (download valid fetch urls).fatal = false →
    (download valid fetch urls).files =
      (downloadGo valid fetch urls 1).map (fun res => res.file) ∧
    (download valid fetch urls).entries =
      (downloadGo valid fetch urls 1).filterMap (fun res => res.entry) ++
      [{ name := ("status.json"),
         data := EntryData.text (statusJSON
           ((downloadGo valid fetch urls 1).map (fun res => res.file))) }] ∧
    (downloadGo valid fetch urls 1).length = urls.length ∧
    ∀ res ∈ downloadGo valid fetch urls 1,
      (res.file.Status = 200 → (res.entry).isSome = true) ∧
      ((res.entry).isSome = true → res.file.Status = 200 ∨ res.file.Status = 502) := by
  intro valid fetch urls hfatal
  have hany : (downloadGo valid fetch urls 1).any (fun res => res.fatal) = false := by
    by_cases h : (downloadGo valid fetch urls 1).any (fun res => res.fatal) = true
    · unfold download at hfatal
      rw [if_pos h] at hfatal
      simp at hfatal
    · simpa using h
  refine ⟨?_, ?_, downloadGo_length valid fetch urls 1 hany, ?_⟩
  · unfold download
    rw [if_neg (by simp [hany])]
  · unfold download
    rw [if_neg (by simp [hany])]
  · intro res hres
    obtain ⟨u, j, rfl⟩ := mem_downloadGo valid fetch urls 1 res hres
    exact downloadFile_entry_status valid (fetch u) j u

/-- The GET environment of the C3 witness: one clean JPEG download. -/
def goodFetch : String → GetEnv := fun _ => GetEnv.resp goodResp

/-- Witness for C3 at a concrete input: one URL downloading a clean JPEG. -/
theorem download_zip_layout_witness :
    (download jpegOnly goodFetch [("http://h/w")]).files =
      (downloadGo jpegOnly goodFetch [("http://h/w")] 1).map (fun res => res.file) ∧
    (download jpegOnly goodFetch [("http://h/w")]).entries =
      (downloadGo jpegOnly goodFetch [("http://h/w")] 1).filterMap (fun res => res.entry) ++
      [{ name := ("status.json"),
         data := EntryData.text (statusJSON
           ((downloadGo jpegOnly goodFetch [("http://h/w")] 1).map (fun res => res.file))) }] ∧
    (downloadGo jpegOnly goodFetch [("http://h/w")] 1).length = [("http://h/w")].length ∧
    ∀ res ∈ downloadGo jpegOnly goodFetch [("http://h/w")] 1,
      (res.file.Status = 200 → (res.entry).isSome = true) ∧
      ((res.entry).isSome = true → res.file.Status = 200 ∨ res.file.Status = 502) :=
  download_zip_layout jpegOnly goodFetch [("http://h/w")] rfl

/-- The GET environment refuting the claim as frozen: a JPEG response whose
stream fails after the first chunk. -/
def midStreamFailFetch : String → GetEnv := fun _ =>
  GetEnv.resp { statusCode := 200, contentTypeHeader := ("image/jpeg"),
                dispositionFilename := (""), body := [255, 216, 255, 0, 0, 0, 0, 0],
                eof := false }

/-- Counterexample to C3 as frozen: a single download that fails mid-stream
(status 502) still leaves its (truncated) entry in the archive, so the ZIP
holds an entry besides status.json although no file ended 200. -/
theorem download_zip_layout_cex :
    ((download jpegOnly midStreamFailFetch [("http://h/x")]).files.all
      (fun f => f.Status != 200)) = true ∧
    (download jpegOnly midStreamFailFetch [("http://h/x")]).fatal = false ∧
    (download jpegOnly midStreamFailFetch [("http://h/x")]).entries.length = 2 ∧
    ((download jpegOnly midStreamFailFetch [("http://h/x")]).entries.map
      (fun e => e.name)) = [("unnamed-1.jpg"), ("status.json")] := by
  refine ⟨by decide, by decide, by decide, by decide⟩

/-- C10: Download on the empty URL list produces an archive holding exactly
the status.json entry with the JSON encoding of the empty record list, and
returns no records and no error. -/
theorem download_empty_archive :
    ∀ (valid : String → Bool) (fetch : String → GetEnv),
    download valid fetch [] =
      { files := [],
        entries := [{ name := ("status.json"), data := EntryData.text ("[]\n") }],
        fatal := false } := by
  intro valid fetch
  rfl

/-! ## Task store (package memstor) -/

/-- Embedding of model.Task; timestamps are abstract instants. -/
structure Task where
  ID : Int
  Files : List File
  CreatedAt : Int
  UpdatedAt : Int
  ExpiresAt : Int
deriving DecidableEq

structure MemConfig where
  MaxTotal : Int
  MaxFiles : Int
  TaskTTL : Int
deriving DecidableEq

/-- The store state: configuration, the task map (as an association list with
Go map semantics) and the cancellation flag. -/
structure Memstor where
  cfg : MemConfig
  tasks : List (Int × Task)
  cancelled : Bool
deriving DecidableEq

inductive StoreErr where
  | taskNotFound
  | maxFilesExceeded
  | serverBusy
  | serverCancelled
deriving DecidableEq

/-- The task record CreateTask inserts. -/
def newTask (id now ttl : Int) : Task :=
  { ID := id, Files := [], CreatedAt := now, UpdatedAt := 0, ExpiresAt := now + ttl }

/-- The record AddFileToTask appends: only the URL is set (this store
revision allocates no file ID). -/
def appendFile (task : Task) (url : String) : Task :=
  { task with Files := task.Files ++ [{ emptyFile with URL := url }] }

def lookupTask (m : List (Int × Task)) (k : Int) : Option Task :=
  (m.find? (fun p => p.1 == k)).map (fun p => p.2)

/-- Go map assignment: replace the entry when the key exists, append
otherwise. -/
def mapInsert (m : List (Int × Task)) (k : Int) (v : Task) : List (Int × Task) :=
  if m.any (fun p => p.1 == k) then
    m.map (fun p => if p.1 == k then (k, v) else p)
  else m ++ [(k, v)]

def mapDelete (m : List (Int × Task)) (k : Int) : List (Int × Task) :=
  m.filter (fun p => !(p.1 == k))

/-- CreateTask with the random 64-bit ID and the current instant supplied by
the environment: cancelled stores refuse, a non-negative cap at or below the
live count refuses with ServerBusy (so cap 0 disables creation and a negative
cap is unlimited), otherwise a task with an empty file list and
created/expiry stamps is inserted. -/
def createTask (s : Memstor) (id now : Int) : Except StoreErr (Int × Memstor) :=
  if s.cancelled then Except.error StoreErr.serverCancelled
  else if 0 ≤ s.cfg.MaxTotal ∧ s.cfg.MaxTotal ≤ (s.tasks.length : Int) then
    Except.error StoreErr.serverBusy
  else
    Except.ok (id,
      { s with tasks := mapInsert s.tasks id (newTask id now s.cfg.TaskTTL) })

/-- DeleteTask: idempotent, never errors on a missing ID. -/
def deleteTask (s : Memstor) (taskID : Int) : Except StoreErr Memstor :=
  if s.cancelled then Except.error StoreErr.serverCancelled
  else Except.ok { s with tasks := mapDelete s.tasks taskID }

/-- AddFileToTask: missing task refuses with TaskNotFound; a non-negative
per-task cap at or below the file count refuses with MaxFilesExceeded;
otherwise a File carrying only the URL is appended (the source revision sets
no file ID, so the appended record keeps the zero ID). -/
def addFileToTask (s : Memstor) (taskID : Int) (url : String) : Except StoreErr Memstor :=
  if s.cancelled then Except.error StoreErr.serverCancelled
  else
    match lookupTask s.tasks taskID with
    | none => Except.error StoreErr.taskNotFound
    | some task =>
      if 0 ≤ s.cfg.MaxFiles ∧ s.cfg.MaxFiles ≤ (task.Files.length : Int) then
        Except.error StoreErr.maxFilesExceeded
      else
        Except.ok { s with tasks := mapInsert s.tasks taskID (appendFile task url) }

def getTaskFiles (s : Memstor) (taskID : Int) : Except StoreErr (List File) :=
  if s.cancelled then Except.error StoreErr.serverCancelled
  else
    match lookupTask s.tasks taskID with
    | none => Except.error StoreErr.taskNotFound
    | some task => Except.ok task.Files

/-- The positional overwrite loop of this store revision's UpdateTaskFiles:
task.Files[idx] = files[i] for each pair. -/
def overwriteAt (files : List File) (pairs : List (Nat × File)) : List File :=
  pairs.foldl (fun acc p => acc.set p.1 p.2) files

/-- The task after the overwrite loop bumped updated_at. -/
def setFilesAt (task : Task) (idxs : List Nat) (files : List File) (now : Int) : Task :=
  { task with Files := overwriteAt task.Files (idxs.zip files), UpdatedAt := now }

def updateTaskFiles (s : Memstor) (taskID : Int) (idxs : List Nat) (files : List File)
    (now : Int) : Except StoreErr (Task × Memstor) :=
  if s.cancelled then Except.error StoreErr.serverCancelled
  else
    match lookupTask s.tasks taskID with
    | none => Except.error StoreErr.taskNotFound
    | some task =>
      if idxs = [] then
        Except.ok (task, { s with tasks := mapInsert s.tasks taskID task })
      else
        Except.ok (setFilesAt task idxs files now,
          { s with tasks := mapInsert s.tasks taskID (setFilesAt task idxs files now) })

/-- The sweeper body: snapshot the expired IDs, then delete them (equivalent
to keeping exactly the unexpired entries). -/
def cleanExpiredTasks (s : Memstor) (now : Int) : Memstor :=
  { s with tasks := s.tasks.filter (fun p => !(decide (p.2.ExpiresAt < now))) }

/-- Cancel: idempotent shutdown, clearing the map. -/
def cancelStore (s : Memstor) : Memstor :=
  if s.cancelled then s else { s with tasks := [], cancelled := true }

/-- One store operation with its environment-supplied randomness and time. -/
inductive StoreOp where
  | create (id now : Int)
  | delete (taskID : Int)
  | addFile (taskID : Int) (url : String)
  | update (taskID : Int) (idxs : List Nat) (files : List File) (now : Int)
  | clean (now : Int)
  | cancelOp

/-- The state after an operation (errors leave the state unchanged). -/
def opState (s : Memstor) : StoreOp → Memstor
  | StoreOp.create id now =>
    match createTask s id now with
    | Except.ok r => r.2
    | Except.error _ => s
  | StoreOp.delete taskID =>
    match deleteTask s taskID with
    | Except.ok s2 => s2
    | Except.error _ => s
  | StoreOp.addFile taskID url =>
    match addFileToTask s taskID url with
    | Except.ok s2 => s2
    | Except.error _ => s
  | StoreOp.update taskID idxs files now =>
    match updateTaskFiles s taskID idxs files now with
    | Except.ok r => r.2
    | Except.error _ => s
  | StoreOp.clean now => cleanExpiredTasks s now
  | StoreOp.cancelOp => cancelStore s

/-- The admission invariants: with a non-negative total cap the live count is
within it, and with a non-negative per-task cap every task's file count is
within it. -/
def StoreInv (s : Memstor) : Prop :=
  (0 ≤ s.cfg.MaxTotal → (s.tasks.length : Int) ≤ s.cfg.MaxTotal) ∧
  (∀ p ∈ s.tasks, 0 ≤ s.cfg.MaxFiles → ((p.2.Files.length : Int) ≤ s.cfg.MaxFiles))

instance (s : Memstor) : Decidable (StoreInv s) := by
  unfold StoreInv
  infer_instance

/-! ### Store lemmas -/

theorem mapInsert_length_le (m : List (Int × Task)) (k : Int) (v : Task) :
    (mapInsert m k v).length ≤ m.length + 1 := by
  unfold mapInsert
  split
  · rw [List.length_map]
    omega
  · rw [List.length_append]
    simp

theorem mapInsert_length_of_mem (m : List (Int × Task)) (k : Int) (v : Task)
    (h : m.any (fun p => p.1 == k) = true) :
    (mapInsert m k v).length = m.length := by
  unfold mapInsert
  rw [if_pos h, List.length_map]

theorem mapInsert_mem {m : List (Int × Task)} {k : Int} {v : Task} {p : Int × Task}
    (h : p ∈ mapInsert m k v) : p = (k, v) ∨ p ∈ m := by
  unfold mapInsert at h
  split at h
  · rcases List.mem_map.mp h with ⟨q, hq, hqe⟩
    by_cases hk : (q.1 == k) = true
    · rw [if_pos hk] at hqe
      exact Or.inl hqe.symm
    · rw [if_neg hk] at hqe
      exact Or.inr (hqe ▸ hq)
  · rcases List.mem_append.mp h with h | h
    · exact Or.inr h
    · exact Or.inl (List.mem_singleton.mp h)

theorem lookupTask_any {m : List (Int × Task)} {k : Int} {t : Task}
    (h : lookupTask m k = some t) : m.any (fun p => p.1 == k) = true := by
  unfold lookupTask at h
  cases hf : m.find? (fun p => p.1 == k) with
  | none => rw [hf] at h; cases h
  | some p =>
    rw [List.any_eq_true]
    exact ⟨p, List.mem_of_find?_eq_some hf, by simpa using List.find?_some hf⟩

theorem lookupTask_mem {m : List (Int × Task)} {k : Int} {t : Task}
    (h : lookupTask m k = some t) : ∃ k', (k', t) ∈ m := by
  unfold lookupTask at h
  cases hf : m.find? (fun p => p.1 == k) with
  | none => rw [hf] at h; cases h
  | some p =>
    rw [hf] at h
    refine ⟨p.1, ?_⟩
    have : p.2 = t := by simpa using h
    rw [← this]
    exact List.mem_of_find?_eq_some hf

theorem overwriteAt_length (files : List File) (pairs : List (Nat × File)) :
    (overwriteAt files pairs).length = files.length := by
  induction pairs generalizing files with
  | nil => rfl
  | cons p rest ih =>
    unfold overwriteAt at ih ⊢
    rw [List.foldl_cons, ih, List.length_set]

/-- C5: every store operation preserves the cap invariants; with the store
live, CreateTask refuses with ServerBusy when a non-negative total cap is at
or below the live count (so cap 0 disables creation), succeeds when the cap
is negative (unlimited), and AddFileToTask refuses with MaxFilesExceeded when
a non-negative per-task cap is at or below the task's file count. -/
theorem memstor_admission_invariants :
    (∀ (s : Memstor) (op : StoreOp), StoreInv s → StoreInv (opState s op)) ∧
    (∀ (s : Memstor) (id now : Int), s.cancelled = false →
      0 ≤ s.cfg.MaxTotal → s.cfg.MaxTotal ≤ (s.tasks.length : Int) →
      createTask s id now = Except.error StoreErr.serverBusy) ∧
    (∀ (s : Memstor) (id now : Int), s.cancelled = false → s.cfg.MaxTotal < 0 →
      createTask s id now = Except.ok (id,
        { s with tasks := mapInsert s.tasks id (newTask id now s.cfg.TaskTTL) })) ∧
    (∀ (s : Memstor) (taskID : Int) (url : String) (task : Task),
      s.cancelled = false → lookupTask s.tasks taskID = some task →
      0 ≤ s.cfg.MaxFiles → s.cfg.MaxFiles ≤ (task.Files.length : Int) →
      addFileToTask s taskID url = Except.error StoreErr.maxFilesExceeded) := by
  refine ⟨?_, ?_, ?_, ?_⟩
  · intro s op hinv
    obtain ⟨hcount, hfiles⟩ := hinv
    cases op with
    | create id now =>
      simp only [opState]
      cases hc : createTask s id now with
      | error e => exact ⟨hcount, hfiles⟩
      | ok r =>
        unfold createTask at hc
        split at hc
        · cases hc
        · split at hc
          next hbusy => cases hc
          next hbusy =>
            cases hc
            constructor
            · intro hpos
              have hlt : (s.tasks.length : Int) < s.cfg.MaxTotal := by
                rcases not_and_or.mp hbusy with h | h
                · exact absurd hpos h
                · omega
              have := mapInsert_length_le s.tasks id (newTask id now s.cfg.TaskTTL)
              simp only []
              omega
            · intro p hp hposf
              rcases mapInsert_mem hp with rfl | hp
              · show ((newTask id now s.cfg.TaskTTL).Files.length : Int) ≤ _
                simpa [newTask] using hposf
              · exact hfiles p hp hposf
    | delete taskID =>
      simp only [opState]
      cases hc : deleteTask s taskID with
      | error e => exact ⟨hcount, hfiles⟩
      | ok s2 =>
        unfold deleteTask at hc
        split at hc
        · cases hc
        · cases hc
          constructor
          · intro hpos
            have hle : (mapDelete s.tasks taskID).length ≤ s.tasks.length :=
              List.length_filter_le _ _
            have := hcount hpos
            simp only []
            omega
          · intro p hp hposf
            exact hfiles p (List.mem_of_mem_filter hp) hposf
    | addFile taskID url =>
      simp only [opState]
      cases hc : addFileToTask s taskID url with
      | error e => exact ⟨hcount, hfiles⟩
      | ok s2 =>
        unfold addFileToTask at hc
        split at hc
        · cases hc
        · split at hc
          · cases hc
          next task hlook =>
            split at hc
            next hfull => cases hc
            next hfull =>
              cases hc
              constructor
              · intro hpos
                have := hcount hpos
                have := mapInsert_length_of_mem s.tasks taskID
                  (appendFile task url) (lookupTask_any hlook)
                simp only []
                omega
              · intro p hp hposf
                rcases mapInsert_mem hp with rfl | hp
                · obtain ⟨k', hk'⟩ := lookupTask_mem hlook
                  have hold := hfiles (k', task) hk' hposf
                  have hlt : (task.Files.length : Int) < s.cfg.MaxFiles := by
                    rcases not_and_or.mp hfull with h | h
                    · exact absurd hposf h
                    · omega
                  show (((appendFile task url).Files.length : Int)) ≤ _
                  simp only [appendFile, List.length_append, List.length_singleton]
                  push_cast
                  omega
                · exact hfiles p hp hposf
    | update taskID idxs files now =>
      simp only [opState]
      cases hc : updateTaskFiles s taskID idxs files now with
      | error e => exact ⟨hcount, hfiles⟩
      | ok r =>
        unfold updateTaskFiles at hc
        split at hc
        · cases hc
        · split at hc
          · cases hc
          next task hlook =>
            obtain ⟨k', hk'⟩ := lookupTask_mem hlook
            have hany := lookupTask_any hlook
            split at hc
            · cases hc
              constructor
              · intro hpos
                have := hcount hpos
                have := mapInsert_length_of_mem s.tasks taskID task hany
                simp only []
                omega
              · intro p hp hposf
                rcases mapInsert_mem hp with rfl | hp
                · exact hfiles (k', task) hk' hposf
                · exact hfiles p hp hposf
            · cases hc
              constructor
              · intro hpos
                have := hcount hpos
                have := mapInsert_length_of_mem s.tasks taskID
                  (setFilesAt task idxs files now) hany
                simp only []
                omega
              · intro p hp hposf
                rcases mapInsert_mem hp with rfl | hp
                · have := hfiles (k', task) hk' hposf
                  simpa [setFilesAt, overwriteAt_length] using this
                · exact hfiles p hp hposf
    | clean now =>
      constructor
      · intro hpos
        have hle : (s.tasks.filter
            (fun p => !(decide (p.2.ExpiresAt < now)))).length ≤ s.tasks.length :=
          List.length_filter_le _ _
        have := hcount hpos
        simp only [opState, cleanExpiredTasks]
        omega
      · intro p hp hposf
        exact hfiles p (List.mem_of_mem_filter hp) hposf
    | cancelOp =>
      simp only [opState, cancelStore]
      split
      · exact ⟨hcount, hfiles⟩
      · exact ⟨by intro hpos; simpa using hpos, by intro p hp; simp at hp⟩
  · intro s id now hlive hpos hfull
    unfold createTask
    rw [if_neg (by simp [hlive]), if_pos ⟨hpos, hfull⟩]
  · intro s id now hlive hneg
    unfold createTask
    rw [if_neg (by simp [hlive]), if_neg (by intro hc; omega)]
  · intro s taskID url task hlive hlook hpos hfull
    unfold addFileToTask
    rw [if_neg (by simp [hlive]), hlook]
    dsimp only
    rw [if_pos ⟨hpos, hfull⟩]

/-- A one-slot store at both caps, for the C5 witness. -/
def demoTask : Task :=
  { ID := 7, Files := [{ emptyFile with URL := ("http://a") }],
    CreatedAt := 0, UpdatedAt := 0, ExpiresAt := 100 }

def demoStore : Memstor :=
  { cfg := { MaxTotal := 1, MaxFiles := 1, TaskTTL := 60 },
    tasks := [(7, demoTask)], cancelled := false }

def demoStoreUnlimited : Memstor :=
  { cfg := { MaxTotal := -1, MaxFiles := -1, TaskTTL := 60 },
    tasks := [(7, demoTask)], cancelled := false }

/-- Witness for C5 at concrete stores: the invariant survives an operation,
a full store refuses creation with ServerBusy, a negative cap accepts, and a
task at its file cap refuses AddFileToTask with MaxFilesExceeded. -/
theorem memstor_admission_invariants_witness :
    StoreInv (opState demoStore (StoreOp.addFile 7 ("http://b"))) ∧
    createTask demoStore 9 0 = Except.error StoreErr.serverBusy ∧
    createTask demoStoreUnlimited 9 0 = Except.ok (9,
      { demoStoreUnlimited with
        tasks := mapInsert demoStoreUnlimited.tasks 9
          (newTask 9 0 demoStoreUnlimited.cfg.TaskTTL) }) ∧
    addFileToTask demoStore 7 ("http://x") = Except.error StoreErr.maxFilesExceeded := by
  refine ⟨memstor_admission_invariants.1 demoStore (StoreOp.addFile 7 ("http://b"))
      (by decide),
    memstor_admission_invariants.2.1 demoStore 9 0 rfl (by decide) (by decide),
    memstor_admission_invariants.2.2.1 demoStoreUnlimited 9 0 rfl (by decide),
    memstor_admission_invariants.2.2.2 demoStore 7 ("http://x") demoTask rfl rfl
      (by decide) (by decide)⟩

/-- C6 (the code as it stands): AddFileToTask appends File records whose ID
is always the zero value, so the file IDs of a task with two files are 0 and
0 — no fresh unique ID is allocated, contradicting model.File's documented
guarantee. -/
def emptyStoreUnlimited : Memstor :=
  { cfg := { MaxTotal := -1, MaxFiles := -1, TaskTTL := 60 },
    tasks := [], cancelled := false }

theorem addFileToTask_no_id_allocation :
    ((createTask emptyStoreUnlimited 7 0).bind (fun r =>
      (addFileToTask r.2 7 ("http://a")).bind (fun s2 =>
        (addFileToTask s2 7 ("http://b")).map (fun s3 =>
          (lookupTask s3.tasks 7).map (fun t => t.Files.map (fun f => f.ID))))))
      = Except.ok (some [0, 0]) ∧
    ¬ ([(0 : Int), 0].Nodup) := by
  exact ⟨rfl, by decide⟩

/-! ## Manager (internal/manager/manager.go, the storage-backed revision) -/

/-- The re-probe filter of GetTaskStatus: never probed (0) or transient
failure on the last probe (502). -/
def needsRecheck (f : File) : Bool :=
  f.Status == 0 || f.Status == 502

/-- The ID re-attachment loop: files[i].ID = ids[i]. -/
def reattachIDs : List Int → List File → List File
  | [], fs => fs
  | _ :: _, [] => []
  | id :: ids, f :: fs => { f with ID := id } :: reattachIDs ids fs

/-- Modelled from the spec: the store revision implementing the manager's
Storage interface (UpdateTaskFiles keyed by file ID) is not among the
provided sources, only this interface declaration and the manager caller are.
Per the spec, UpdateTaskFiles overwrites each stored file with the entry of
newFiles carrying the same file ID and leaves files without a matching entry
unchanged. -/
def updateTaskFilesByID (stored newFiles : List File) : List File :=
  stored.map (fun f =>
    match newFiles.find? (fun g => g.ID == f.ID) with
    | some g => g
    | none => f)

/-- Manager.GetTaskStatus over a stored file list: select the files whose
status is 0 or 502, remember their IDs, probe their URLs with Loader.Check
(when there are any), re-attach the saved IDs to the fresh records and write
them back; a fatal Check error aborts without writing back. -/
def getTaskStatus (valid : String → Bool) (fetchH : String → HeadEnv)
    (stored : List File) : Option (List File) :=
  if ((stored.filter needsRecheck).map (fun f => f.URL)).isEmpty then
    some (updateTaskFilesByID stored
      (reattachIDs ((stored.filter needsRecheck).map (fun f => f.ID)) stored))
  else if (check valid fetchH ((stored.filter needsRecheck).map (fun f => f.URL))).2 then
    none
  else
    some (updateTaskFilesByID stored
      (reattachIDs ((stored.filter needsRecheck).map (fun f => f.ID))
        (check valid fetchH ((stored.filter needsRecheck).map (fun f => f.URL))).1))

/-- The fresh record Check produces for a stored file, with the saved file ID
re-attached. -/
def chkFresh (valid : String → Bool) (fetchH : String → HeadEnv) (f : File) : File :=
  { (checkFile valid (fetchH f.URL) f.URL).1 with ID := f.ID }

/-! ### Manager lemmas -/

theorem reattachIDs_map (valid : String → Bool) (fetchH : String → HeadEnv) :
    ∀ (sel : List File),
    reattachIDs (sel.map (fun f => f.ID))
      ((sel.map (fun f => f.URL)).map (fun u => (checkFile valid (fetchH u) u).1)) =
    sel.map (chkFresh valid fetchH) := by
  intro sel
  induction sel with
  | nil => rfl
  | cons f rest ih =>
    simp only [List.map_cons, reattachIDs]
    rw [ih]
    rfl

theorem find_map_some (h : File → File) (hid : ∀ g, (h g).ID = g.ID) :
    ∀ (l : List File) (f : File), f ∈ l → (∀ g ∈ l, g.ID = f.ID → g = f) →
    (l.map h).find? (fun g => g.ID == f.ID) = some (h f) := by
  intro l
  induction l with
  | nil => intro f hf _; simp at hf
  | cons g t ih =>
    intro f hf hinj
    by_cases hgf : g = f
    · subst hgf
      rw [List.map_cons]
      exact List.find?_cons_of_pos _ (by simp [hid g])
    · have hne : g.ID ≠ f.ID := fun he => hgf (hinj g (List.mem_cons_self g t) he)
      rw [List.map_cons, List.find?_cons_of_neg _ (by simp [hid g, hne])]
      refine ih f ?_ (fun g2 hg2 he2 => hinj g2 (List.mem_cons_of_mem g hg2) he2)
      rcases List.mem_cons.mp hf with rfl | hf
      · exact absurd rfl hgf
      · exact hf

theorem find_map_none (h : File → File) (hid : ∀ g, (h g).ID = g.ID)
    (l : List File) (f : File) (hall : ∀ g ∈ l, g.ID ≠ f.ID) :
    (l.map h).find? (fun g => g.ID == f.ID) = none := by
  apply List.find?_eq_none.mpr
  intro x hx
  rcases List.mem_map.mp hx with ⟨g, hg, rfl⟩
  simp [hid g]
  exact hall g hg

theorem find_self (l : List File) (f : File) (hf : f ∈ l)
    (hinj : ∀ g ∈ l, g.ID = f.ID → g = f) :
    l.find? (fun g => g.ID == f.ID) = some f := by
  induction l with
  | nil => simp at hf
  | cons g t ih =>
    by_cases hgf : g = f
    · subst hgf
      exact List.find?_cons_of_pos _ (by simp)
    · have hne : g.ID ≠ f.ID := fun he => hgf (hinj g (List.mem_cons_self g t) he)
      rw [List.find?_cons_of_neg _ (by simpa using hne)]
      refine ih ?_ (fun g2 hg2 he2 => hinj g2 (List.mem_cons_of_mem g hg2) he2)
      rcases List.mem_cons.mp hf with rfl | hf
      · exact absurd rfl hgf
      · exact hf

theorem updateByID_eq (valid : String → Bool) (fetchH : String → HeadEnv)
    (stored : List File) (hnd : (stored.map (fun f => f.ID)).Nodup) :
    updateTaskFilesByID stored ((stored.filter needsRecheck).map (chkFresh valid fetchH)) =
    stored.map (fun f => if needsRecheck f then chkFresh valid fetchH f else f) := by
  unfold updateTaskFilesByID
  apply List.map_congr_left
  intro f hf
  have hinj : ∀ g ∈ stored, g.ID = f.ID → g = f :=
    fun g hg he => List.inj_on_of_nodup_map hnd hg hf he
  by_cases hnr : needsRecheck f = true
  · rw [find_map_some (chkFresh valid fetchH) (fun g => rfl)
      (stored.filter needsRecheck) f (List.mem_filter.mpr ⟨hf, hnr⟩)
      (fun g hg he => hinj g (List.mem_of_mem_filter hg) he)]
    rw [if_pos hnr]
  · rw [find_map_none (chkFresh valid fetchH) (fun g => rfl)
      (stored.filter needsRecheck) f ?_]
    · rw [if_neg hnr]
    · intro g hg he
      have hge : g = f := hinj g (List.mem_of_mem_filter hg) he
      subst hge
      exact hnr (List.mem_filter.mp hg).2

theorem updateByID_self (stored : List File)
    (hnd : (stored.map (fun f => f.ID)).Nodup) :
    updateTaskFilesByID stored stored = stored := by
  unfold updateTaskFilesByID
  have h1 : stored.map (fun f =>
      match stored.find? (fun g => g.ID == f.ID) with
      | some g => g
      | none => f) = stored.map id := by
    apply List.map_congr_left
    intro f hf
    rw [find_self stored f hf
      (fun g hg he => List.inj_on_of_nodup_map hnd hg hf he)]
    rfl
  rw [h1, List.map_id]

/-- C7: provided the stored file IDs are unique, GetTaskStatus leaves every
file whose status is neither 0 nor 502 untouched and replaces exactly the
files with status 0 or 502 by the fresh record Loader.Check returns for their
URL with the saved file ID re-attached. -/
theorem getTaskStatus_recheck_frame :
    ∀ (valid : String → Bool) (fetchH : String → HeadEnv) (stored result : List File),
    (stored.map (fun f => f.ID)).Nodup →
    getTaskStatus valid fetchH stored = some result →
    result = stored.map (fun f =>
      if needsRecheck f then chkFresh valid fetchH f else f) := by
  intro valid fetchH stored result hnd hres
  unfold getTaskStatus at hres
  by_cases hsel : ((stored.filter needsRecheck).map (fun f => f.URL)).isEmpty = true
  · rw [if_pos hsel] at hres
    have hselnil : stored.filter needsRecheck = [] := by
      have := List.isEmpty_iff.mp hsel
      exact List.map_eq_nil_iff.mp this
    rw [hselnil] at hres
    simp only [List.map_nil, reattachIDs] at hres
    have hres2 : result = updateTaskFilesByID stored stored := by
      injection hres with h
      exact h.symm
    have hnone : ∀ f ∈ stored, needsRecheck f = false := by
      intro f hf
      have := List.filter_eq_nil_iff.mp hselnil f hf
      simpa using this
    have hmapid : stored.map (fun f =>
        if needsRecheck f then chkFresh valid fetchH f else f) = stored := by
      have : stored.map (fun f =>
          if needsRecheck f then chkFresh valid fetchH f else f) = stored.map id := by
        apply List.map_congr_left
        intro f hf
        rw [if_neg (by simp [hnone f hf])]
        rfl
      rw [this, List.map_id]
    rw [hres2, updateByID_self stored hnd, hmapid]
  · rw [if_neg hsel] at hres
    by_cases hfat :
        (check valid fetchH ((stored.filter needsRecheck).map (fun f => f.URL))).2 = true
    · rw [if_pos hfat] at hres
      cases hres
    · rw [if_neg hfat] at hres
      injection hres with h
      rw [← h, check_files_eq_map, reattachIDs_map valid fetchH (stored.filter needsRecheck)]
      exact updateByID_eq valid fetchH stored hnd

/-- A stored list exercising the C7 witness: one terminal 403 record, one
never-probed record and one transient-502 record, with distinct IDs. -/
def wStored : List File :=
  [{ emptyFile with ID := 1, URL := ("http://blocked/a"), Status := 403 },
   { emptyFile with ID := 2, URL := ("http://down/b") },
   { emptyFile with ID := 3, URL := ("http://ok/c"), Status := 502 }]

/-- Witness for C7 at a concrete store and probe environment. -/
theorem getTaskStatus_recheck_frame_witness :
    ((getTaskStatus jpegOnly headFetchDemo wStored).getD []) =
      wStored.map (fun f =>
        if needsRecheck f then chkFresh jpegOnly headFetchDemo f else f) := by
  apply getTaskStatus_recheck_frame jpegOnly headFetchDemo wStored
    ((getTaskStatus jpegOnly headFetchDemo wStored).getD []) (by decide)
  decide

end ZipGet
